import Mathlib

/-!
Shallow embedding of the garden-planner engine (Rust sources under `src/`):
the spacing model, companion scorer, candidate ranker, grid model,
allocation planner, greedy placer and response builder, together with
theorems settling the frozen claims about them.

Machine integers: all Rust `usize`/`u32` arithmetic in the planner is
saturating or bounds-guarded, so it is modelled on `Nat` (with truncated
subtraction matching `saturating_sub`); scores are `i32` modelled as `Int`
(no overflow is reachable at grid sizes).
Fallible indexing (`Vec` index panics) is modelled with `Option`.
-/

namespace Garden

/-! ## Data model (`src/models/vegetable.rs`) -/

inductive Season
  | Spring | Summer | Autumn | Winter
deriving DecidableEq, Repr

inductive SunExposure
  | FullSun | PartialShade | Shade
deriving DecidableEq, Repr

inductive SoilType
  | Clay | Sandy | Loamy | Chalky | Humus
deriving DecidableEq, Repr

inductive Region
  | Temperate | Mediterranean | Oceanic | Continental | Mountain
deriving DecidableEq, Repr

inductive Category
  | Fruit | Produce | Herb | Root | Bulb | Leafy | Pod
deriving DecidableEq, Repr

/-- The lowercase rendering used by `impl fmt::Display for Category`. -/
def Category.display : Category → String
  | .Fruit => "fruit"
  | .Produce => "produce"
  | .Herb => "herb"
  | .Root => "root"
  | .Bulb => "bulb"
  | .Leafy => "leafy"
  | .Pod => "pod"

inductive Level
  | Beginner | Expert
deriving DecidableEq, Repr

structure Vegetable where
  id : String
  name : String
  seasons : List Season
  sun_requirement : List SunExposure
  soil_types : List SoilType
  regions : List Region
  spacing_cm : Nat
  good_companions : List String
  bad_companions : List String
  beginner_friendly : Bool
  category : Category
deriving DecidableEq, Repr

/-! ## Spacing model (`src/logic/planner.rs`) -/

/-- Size of one grid cell in centimetres. -/
def CELL_SIZE_CM : Nat := 30

/-- `cell_span`: `ceil(spacing / 30)`, minimum 1 (`spacing.div_ceil(CELL_SIZE_CM).max(1)`). -/
def cell_span (spacing_cm : Nat) : Nat :=
  max ((spacing_cm + (CELL_SIZE_CM - 1)) / CELL_SIZE_CM) 1

/-- `plants_per_cell`: 1 for span > 1, else `((30 / max spacing 1).max 1)^2`. -/
def plants_per_cell (spacing_cm : Nat) : Nat :=
  if cell_span spacing_cm > 1 then 1
  else
    let per_axis := max (CELL_SIZE_CM / max spacing_cm 1) 1
    per_axis * per_axis

/-! ## Companion scorer (`src/logic/companion.rs`) -/

def GOOD_COMPANION_SCORE : Int := 2
def BAD_COMPANION_SCORE : Int := -3

/-- `companion_score`: +2 per neighbour in `good_companions`, −3 per neighbour
in `bad_companions`, both added when a neighbour is in both lists. -/
def companion_score (vegetable : Vegetable) (neighbor_ids : List String) : Int :=
  neighbor_ids.foldl
    (fun score neighbor_id =>
      let score := if vegetable.good_companions.any (fun c => c == neighbor_id) then
          score + GOOD_COMPANION_SCORE else score
      if vegetable.bad_companions.any (fun c => c == neighbor_id) then
        score + BAD_COMPANION_SCORE else score)
    0

/-! ## Candidate ranker (`src/logic/filter.rs`) -/

/-- `french_rank`: French household consumption rank; unknown IDs get 999. -/
def french_rank (id : String) : Nat :=
  if id == "tomato" then 1
  else if id == "carrot" then 2
  else if id == "leek" then 3
  else if id == "lettuce" then 4
  else if id == "green-bean" then 5
  else if id == "zucchini" then 6
  else if id == "cucumber" then 7
  else if id == "onion" then 8
  else if id == "cabbage" then 9
  else if id == "spinach" then 10
  else if id == "pepper" then 11
  else if id == "red-pepper" then 12
  else if id == "broccoli" then 13
  else if id == "eggplant" then 14
  else if id == "cauliflower" then 15
  else if id == "pea" then 16
  else if id == "beet" then 17
  else if id == "radish" then 18
  else if id == "potato" then 19
  else if id == "garlic" then 20
  else if id == "pumpkin" then 21
  else if id == "celery" then 22
  else if id == "fennel" then 23
  else if id == "turnip" then 24
  else if id == "asparagus" then 25
  else if id == "artichoke" then 26
  else if id == "strawberry" then 27
  else if id == "basil" then 28
  else if id == "parsley" then 29
  else if id == "chive" then 30
  else if id == "mint" then 31
  else if id == "thyme" then 32
  else if id == "rosemary" then 33
  else if id == "maïs" then 34
  else 999

/-- A single preference entry (`src/models/request.rs`): id plus optional desired plant count. -/
structure PreferenceEntry where
  id : String
  quantity : Option Nat
deriving DecidableEq, Repr

/-- A cell of the request layout as consumed by `src/logic/planner.rs`
(`Free(())`, `Planted(id)`, `Blocked(bool)`). -/
inductive LayoutCell
  | Free
  | Planted (id : String)
  | Blocked (b : Bool)
deriving DecidableEq, Repr

structure PlanRequest where
  season : Season
  sun : Option SunExposure
  soil : Option SoilType
  region : Option Region
  level : Option Level
  preferences : Option (List PreferenceEntry)
  layout : List (List LayoutCell)
deriving Repr

/-- The filter predicate of `filter_vegetables` (the early-return chain). -/
def matches_request (request : PlanRequest) (v : Vegetable) : Bool :=
  if !(v.seasons.contains request.season) then false
  else if (match request.sun with
    | some sun => !(v.sun_requirement.contains sun)
    | none => false) then false
  else if (match request.soil with
    | some soil => !(v.soil_types.contains soil)
    | none => false) then false
  else if (match request.region with
    | some region => !(v.regions.contains region)
    | none => false) then false
  else if (request.level == some Level.Beginner) && !v.beginner_friendly then false
  else true

/-- The `sort_by` comparator of `filter_vegetables`, as a Rust `Ordering`. -/
def filter_cmp (preferences : List PreferenceEntry) (a b : Vegetable) : Ordering :=
  let a_pos := preferences.findIdx? (fun p => p.id == a.id)
  let b_pos := preferences.findIdx? (fun p => p.id == b.id)
  match a_pos, b_pos with
  | some ai, some bi => compare ai bi
  | some _, none => .lt
  | none, some _ => .gt
  | none, none => compare (french_rank a.id) (french_rank b.id)

/-- `filter_vegetables`: filter by request constraints, then stable sort by
`filter_cmp` (Rust `sort_by` is a stable sort; `mergeSort` is the stable sort
for the induced `le`). -/
def filter_vegetables (db : List Vegetable) (request : PlanRequest) : List Vegetable :=
  let preferences := request.preferences.getD []
  (db.filter (matches_request request)).mergeSort
    (fun a b => filter_cmp preferences a b ≠ .gt)

/-! ## Grid model (`src/models/garden.rs`) -/

structure PlacedVegetable where
  id : String
  name : String
  reason : String
  plants_per_cell : Nat
  span : Nat
  anchor_row : Nat
  anchor_col : Nat
deriving DecidableEq, Repr

structure Cell where
  vegetable : Option PlacedVegetable
  blocked : Bool
deriving DecidableEq, Repr

instance : Inhabited Cell := ⟨⟨none, false⟩⟩

structure GardenGrid where
  rows : Nat
  cols : Nat
  cells : List (List Cell)
deriving DecidableEq, Repr

/-- `GardenGrid::new`: an all-free rows×cols matrix. -/
def GardenGrid.new (rows cols : Nat) : GardenGrid :=
  { rows := rows, cols := cols
    cells := List.replicate rows (List.replicate cols ⟨none, false⟩) }

/-- Read of `self.cells[r][c]`; every read in the source is guarded by a
bounds check against `rows`/`cols`, so on well-formed grids this coincides
with the panicking Rust index. -/
def getCell (g : GardenGrid) (r c : Nat) : Cell :=
  (g.cells.getD r []).getD c default

/-- Fallible write to `self.cells[r][c]` — `none` models the Rust index panic
when `(r, c)` lies outside the actual cell matrix. -/
def writeCell (g : GardenGrid) (r c : Nat) (f : Cell → Cell) : Option GardenGrid :=
  if r < g.cells.length ∧ c < (g.cells.getD r []).length then
    some { g with cells := g.cells.set r ((g.cells.getD r []).set c (f (getCell g r c))) }
  else none

/-- In-bounds write used by `fill_block`, whose target block was just checked
free (hence in bounds) by `is_block_free`; `List.set` is the same update. -/
def setVegCell (g : GardenGrid) (r c : Nat) (pv : PlacedVegetable) : GardenGrid :=
  { g with cells := g.cells.set r ((g.cells.getD r []).set c { getCell g r c with vegetable := some pv }) }

/-- `GardenGrid::is_block_free`. -/
def is_block_free (g : GardenGrid) (row col span : Nat) : Bool :=
  if row + span > g.rows || col + span > g.cols then false
  else
    (List.range span).all fun dr =>
      (List.range span).all fun dc =>
        let cell := getCell g (row + dr) (col + dc)
        !(cell.vegetable.isSome || cell.blocked)

/-- The perimeter coordinates visited by `get_block_neighbors`, in visit order
(for each `d` in `0..span`: top, bottom, left, right edge cell). -/
def perimeter_coords (row col span : Nat) : List (Int × Int) :=
  let s : Int := span
  let r0 : Int := row
  let c0 : Int := col
  (List.range span).flatMap fun d =>
    [(r0 - 1, c0 + d), (r0 + s, c0 + d), (r0 + d, c0 - 1), (r0 + d, c0 + s)]

/-- One `check(r, c)` step of `get_block_neighbors`: skip out-of-grid
coordinates, record the coordinate in `seen`, and if the cell (visited for the
first time) holds a placement, append it. -/
def gbn_check (g : GardenGrid) (st : List (Nat × Nat) × List PlacedVegetable)
    (rc : Int × Int) : List (Nat × Nat) × List PlacedVegetable :=
  let (r, c) := rc
  if r < 0 || c < 0 || r ≥ (g.rows : Int) || c ≥ (g.cols : Int) then st
  else
    let key := (r.toNat, c.toNat)
    if key ∈ st.1 then st
    else
      match (getCell g r.toNat c.toNat).vegetable with
      | some v => (key :: st.1, st.2 ++ [v])
      | none => (key :: st.1, st.2)

/-- `GardenGrid::get_block_neighbors`: scan the perimeter ring of the
`span × span` block, de-duplicating by *coordinate* via the `seen` set. -/
def get_block_neighbors (g : GardenGrid) (row col span : Nat) : List PlacedVegetable :=
  ((perimeter_coords row col span).foldl (gbn_check g) ([], [])).2

/-! ## Grid initialisation and bookkeeping (`src/logic/planner.rs`) -/

/-- Modelled from the spec: the catalogue collaborator
(`crate::data::vegetables`, not under `src/`) exposes lookup-by-identifier,
returning the variety or not-found; the catalogue itself is a parameter `db`
whose identifiers are unique. -/
def get_vegetable_by_id (db : List Vegetable) (id : String) : Option Vegetable :=
  db.find? (fun v => v.id == id)

/-- The warning pushed by `initialize_grid` for an unresolvable identifier
(note: it names the identifier only; the coordinates go to the log). -/
def not_found_warning (id : String) : String :=
  "Vegetable " ++ "'" ++ id ++ "'" ++ " not found in the database, skipped."

/-- Body of `initialize_grid`'s inner loop at layout position `(r, c)`. -/
def init_cell (db : List Vegetable) (r c : Nat) (cell : LayoutCell)
    (st : GardenGrid × List String) : Option (GardenGrid × List String) :=
  match cell with
  | .Blocked true =>
    (writeCell st.1 r c (fun cl => { cl with blocked := true })).map (fun g => (g, st.2))
  | .Planted id =>
    match get_vegetable_by_id db id with
    | some v =>
      (writeCell st.1 r c (fun cl =>
        { cl with vegetable := some (⟨v.id, v.name, "Present in the existing layout.",
            plants_per_cell v.spacing_cm, 1, r, c⟩ : PlacedVegetable) })).map
        (fun g => (g, st.2))
    | none => some (st.1, st.2 ++ [not_found_warning id])
  | _ => some st

/-- `initialize_grid`'s inner loop over the cells of layout row `r`. -/
def init_row (db : List Vegetable) (r : Nat) :
    Nat → List LayoutCell → GardenGrid × List String → Option (GardenGrid × List String)
  | _, [], st => some st
  | c, cell :: rest, st =>
    match init_cell db r c cell st with
    | none => none
    | some st' => init_row db r (c + 1) rest st'

/-- `initialize_grid`'s outer loop over layout rows. -/
def init_rows (db : List Vegetable) :
    Nat → List (List LayoutCell) → GardenGrid × List String → Option (GardenGrid × List String)
  | _, [], st => some st
  | r, row :: rest, st =>
    match init_row db r 0 row st with
    | none => none
    | some st' => init_rows db (r + 1) rest st'

/-- `initialize_grid`: blank grid pre-filled from the layout; `none` models the
index panic on a layout row longer than the grid's column count. -/
def initialize_grid (db : List Vegetable) (rows cols : Nat)
    (layout : List (List LayoutCell)) : Option (GardenGrid × List String) :=
  init_rows db 0 layout (GardenGrid.new rows cols, [])

/-- `count_grid_occupancy`: `(occupied, blocked)` cell counts. -/
def count_grid_occupancy (g : GardenGrid) : Nat × Nat :=
  ((g.cells.flatten.filter (fun c => c.vegetable.isSome)).length,
   (g.cells.flatten.filter (fun c => c.blocked)).length)

/-- Same cell-matrix dimensions and the same `rows`/`cols` fields: the
invariant every grid write preserves. -/
def sameShape (g g2 : GardenGrid) : Prop :=
  g2.rows = g.rows ∧ g2.cols = g.cols ∧ g2.cells.length = g.cells.length ∧
    ∀ j, (g2.cells.getD j []).length = (g.cells.getD j []).length

/-- A cell that is plantable: unoccupied and not blocked
(`c.vegetable.is_none() && !c.blocked`). -/
def cellFree (c : Cell) : Bool :=
  c.vegetable.isNone && !c.blocked

/-- Number of plantable (non-blocked, unoccupied) cells; the measure that
phase 2's committing sweeps strictly decrease. -/
def freeCount (g : GardenGrid) : Nat :=
  (g.cells.flatten.filter cellFree).length

/-- Well-formedness: the cell matrix really is `rows × cols`. It holds for
`GardenGrid::new` and is preserved by every write. -/
def WF (g : GardenGrid) : Prop :=
  g.cells.length = g.rows ∧ ∀ row ∈ g.cells, row.length = g.cols

/-! ## Allocation planner (`src/logic/planner.rs`) -/

/-- `HashMap::insert`: replace the value under an existing key, else add the entry. -/
def insertAssoc (m : List (String × Nat)) (k : String) (v : Nat) : List (String × Nat) :=
  if (m.find? (fun p => p.1 == k)).isSome then
    m.map (fun p => if p.1 == k then (k, v) else p)
  else m ++ [(k, v)]

/-- `HashMap::get(..).copied()`. -/
def lookupAssoc (m : List (String × Nat)) (k : String) : Option Nat :=
  (m.find? (fun p => p.1 == k)).map (fun p => p.2)

/-- Total number of cells reserved in an allocation map. -/
def sumValues (m : List (String × Nat)) : Nat :=
  (m.map (fun p => p.2)).sum

/-- Distinct keys — the invariant of maps built through `insertAssoc`. -/
def keysNodup (m : List (String × Nat)) : Prop :=
  (m.map (fun p => p.1)).Nodup

/-- One preference step of `compute_explicit_allocation`: reserve
`min(qty × span², remaining)` cells and deduct, only for preferences with an
explicit quantity whose id is among the candidates. -/
def alloc_step (candidates : List Vegetable) (st : List (String × Nat) × Nat)
    (pref : PreferenceEntry) : List (String × Nat) × Nat :=
  match pref.quantity with
  | some qty =>
    match candidates.find? (fun v => v.id == pref.id) with
    | some v =>
      let cells_per_plant := (cell_span v.spacing_cm) ^ 2
      let cells_needed := qty * cells_per_plant
      let alloc := min cells_needed st.2
      (insertAssoc st.1 pref.id alloc, st.2 - alloc)
    | none => st
  | none => st

/-- `compute_explicit_allocation`: the `id → reserved cells` map (the running
budget is local state). -/
def compute_explicit_allocation (candidates : List Vegetable)
    (preferences : List PreferenceEntry) (available : Nat) : List (String × Nat) :=
  (preferences.foldl (alloc_step candidates) ([], available)).1

/-- Reserved cells → placement count: `max(1, cells / span²)` when non-zero, else 0. -/
def placements_of_cells (cells cells_per_slot : Nat) : Nat :=
  if cells > 0 then max (cells / cells_per_slot) 1 else 0

/-- `build_placement_queue`: placement-count map over allocated candidates plus
the queue repeating each preferred vegetable by its placement count. -/
def build_placement_queue (candidates : List Vegetable)
    (preferences : List PreferenceEntry) (free_cells : Nat) :
    List Vegetable × List (String × Nat) :=
  let allocation := compute_explicit_allocation candidates preferences free_cells
  let placements_map :=
    (candidates.filter (fun v => (lookupAssoc allocation v.id).isSome)).foldl
      (fun m v =>
        let cells_per_slot := (cell_span v.spacing_cm) ^ 2
        let cells := (lookupAssoc allocation v.id).getD 0
        insertAssoc m v.id (placements_of_cells cells cells_per_slot))
      []
  let queue :=
    (preferences.filterMap (fun p => candidates.find? (fun v => v.id == p.id))).flatMap
      (fun v => List.replicate ((lookupAssoc placements_map v.id).getD 0) v)
  (queue, placements_map)

/-! ## Greedy placer (`src/logic/planner.rs`) -/

/-- The row-major scan positions of `find_best_block`
(`0..=rows.saturating_sub(span)` × `0..=cols.saturating_sub(span)`). -/
def block_positions (rows cols span : Nat) : List (Nat × Nat) :=
  (List.range (rows - span + 1)).flatMap fun r =>
    (List.range (cols - span + 1)).map fun c => (r, c)

/-- The companion score of placing `vegetable` on the block at `(r, c)`. -/
def block_score (g : GardenGrid) (vegetable : Vegetable) (r c span : Nat) : Int :=
  companion_score vegetable ((get_block_neighbors g r c span).map (fun v => v.id))

/-- One scan step of `find_best_block`: keep the current best unless the
position is free and scores strictly higher (`is_none_or(score > s)`). -/
def fbb_step (g : GardenGrid) (vegetable : Vegetable) (span : Nat)
    (best : Option (Nat × Nat × Int)) (rc : Nat × Nat) : Option (Nat × Nat × Int) :=
  if !is_block_free g rc.1 rc.2 span then best
  else
    let score := block_score g vegetable rc.1 rc.2 span
    match best with
    | none => some (rc.1, rc.2, score)
    | some (_, _, s) => if score > s then some (rc.1, rc.2, score) else best

/-- `find_best_block`: row-major scan for the free `span × span` block with the
strictly highest companion score. -/
def find_best_block (g : GardenGrid) (vegetable : Vegetable) (rows cols : Nat) :
    Option (Nat × Nat × Int) :=
  let span := cell_span vegetable.spacing_cm
  (block_positions rows cols span).foldl (fbb_step g vegetable span) none

/-- `build_reason`. -/
def build_reason (vegetable : Vegetable) (neighbor_names : List String) (score : Int) : String :=
  if neighbor_names.isEmpty then
    "First placed (" ++ vegetable.category.display ++
      (if vegetable.beginner_friendly then ", beginner-friendly" else "") ++ ") "
  else
    let neighbors_str := String.intercalate ", " neighbor_names
    let qualifier :=
      if score > 0 then "good companion with"
      else if score < 0 then "constrained placement near"
      else "neutral with"
    vegetable.name ++ " " ++ qualifier ++ " " ++ neighbors_str ++
      (if vegetable.beginner_friendly then " (beginner-friendly)" else "")

/-- `fill_block`: write the placement into every cell of the `span × span`
block (row-major, mirroring the two nested `for` loops). -/
def fill_block (g : GardenGrid) (vegetable : Vegetable) (row col : Nat) (reason : String) :
    GardenGrid :=
  let span := cell_span vegetable.spacing_cm
  let pv : PlacedVegetable :=
    ⟨vegetable.id, vegetable.name, reason, plants_per_cell vegetable.spacing_cm,
     span, row, col⟩
  ((List.range span).flatMap fun dr => (List.range span).map fun dc => (dr, dc)).foldl
    (fun g d => setVegCell g (row + d.1) (col + d.2) pv) g

/-- Per-id cell count of a grid — the seed of `place_candidates`'
`placed_counts` map (pre-filled cells are span 1, one cell each). -/
def placedSeed (g : GardenGrid) (id : String) : Nat :=
  (g.cells.flatten.filter (fun c =>
    match c.vegetable with
    | some v => v.id == id
    | none => false)).length

/-- `place_candidates`' loop over the queue, carrying the grid, the
`placed_counts` bookkeeping and the cumulative score. `break 'outer` on a
missing free cell for a span-1 entry returns immediately, abandoning the rest. -/
def place_loop (placements_map : List (String × Nat)) (rows cols : Nat) :
    List Vegetable → GardenGrid → (String → Nat) → Int → GardenGrid × Int
  | [], g, _, score => (g, score)
  | vegetable :: rest, g, counts, score =>
    let max_count := (lookupAssoc placements_map vegetable.id).getD 0
    if counts vegetable.id ≥ max_count then
      place_loop placements_map rows cols rest g counts score
    else
      let span := cell_span vegetable.spacing_cm
      match find_best_block g vegetable rows cols with
      | none =>
        if span == 1 then (g, score)
        else place_loop placements_map rows cols rest g counts score
      | some (r, c, s) =>
        let neighbor_names := (get_block_neighbors g r c span).map (fun v => v.name)
        let g' := fill_block g vegetable r c (build_reason vegetable neighbor_names s)
        place_loop placements_map rows cols rest g'
          (fun id => if id == vegetable.id then counts id + 1 else counts id) (score + s)

/-- `place_candidates` (phase 1). -/
def place_candidates (g : GardenGrid) (queue : List Vegetable)
    (placements_map : List (String × Nat)) (rows cols : Nat) : GardenGrid × Int :=
  place_loop placements_map rows cols queue g (placedSeed g) 0

/-- One candidate step of a phase-2 sweep: try exactly one best-block
placement, counting commits. -/
def sweep_step (rows cols : Nat) (st : GardenGrid × Int × Nat) (vegetable : Vegetable) :
    GardenGrid × Int × Nat :=
  match find_best_block st.1 vegetable rows cols with
  | none => st
  | some (r, c, s) =>
    let span := cell_span vegetable.spacing_cm
    let neighbor_names := (get_block_neighbors st.1 r c span).map (fun v => v.name)
    (fill_block st.1 vegetable r c (build_reason vegetable neighbor_names s),
     st.2.1 + s, st.2.2 + 1)

/-- One full pass of `fill_remaining_cells` over all candidates:
`(grid, score gained, placements_this_pass)`. -/
def sweep (g : GardenGrid) (candidates : List Vegetable) (rows cols : Nat) :
    GardenGrid × Int × Nat :=
  candidates.foldl (sweep_step rows cols) (g, 0, 0)

/-- The `loop { sweep; if 0 placements break }` of `fill_remaining_cells`,
with explicit fuel; `none` would mean the fuel ran out before the zero-commit
fixed point (shown unreachable for fuel > `freeCount`). -/
def fill_loop (candidates : List Vegetable) (rows cols : Nat) :
    Nat → GardenGrid → Int → Option (GardenGrid × Int)
  | 0, _, _ => none
  | fuel + 1, g, acc =>
    let res := sweep g candidates rows cols
    if res.2.2 = 0 then some (res.1, acc + res.2.1)
    else fill_loop candidates rows cols fuel res.1 (acc + res.2.1)

/-- `fill_remaining_cells` (phase 2): sweep until a complete sweep commits
zero placements. Every committing sweep strictly decreases `freeCount`, so
`freeCount g + 1` sweeps always suffice. -/
def fill_remaining_cells (g : GardenGrid) (candidates : List Vegetable)
    (rows cols : Nat) : Option (GardenGrid × Int) :=
  fill_loop candidates rows cols (freeCount g + 1) g 0

/-! ## Validation, response building, `plan_garden` -/

/-- `validate_layout`: at least one row and a non-empty first row. -/
def validate_layout (layout : List (List LayoutCell)) : Except String (Nat × Nat) :=
  if layout.isEmpty then .error "Layout must contain at least one row."
  else
    let cols := (layout.headD []).length
    if cols = 0 then .error "Layout rows must not be empty."
    else .ok (layout.length, cols)

/-- `empty_cells_warning`. -/
def empty_cells_warning (g : GardenGrid) : Option String :=
  let empty := freeCount g
  if empty > 0 then
    some (toString empty ++ " empty cell(s): not enough compatible vegetables to fill the entire grid.")
  else none

/-- A cell of the response grid (`PlannedCell`, `src/models/request.rs`). -/
inductive PlannedCell
  | SelfContained (id name reason : String) (plants_per_cell : Nat)
  | Overflowing (id name reason : String) (plants_per_cell width_cells length_cells : Nat)
  | Overflowed (covered_row covered_col : Nat)
  | Empty
  | Blocked
deriving DecidableEq, Repr

/-- `PlannedCell::id`: the vegetable id of an anchor cell. -/
def PlannedCell.id : PlannedCell → Option String
  | .SelfContained id _ _ _ => some id
  | .Overflowing id _ _ _ _ _ => some id
  | _ => none

/-- `PlannedCell::is_placed`. -/
def PlannedCell.is_placed : PlannedCell → Bool
  | .Empty => false
  | .Blocked => false
  | _ => true

structure PlanResponse where
  grid : List (List PlannedCell)
  rows : Nat
  cols : Nat
  score : Int
  warnings : List String
deriving DecidableEq, Repr

/-- The five-way cell classification of `build_response`. -/
def classify_cell (ro co : Nat) (cell : Cell) : PlannedCell :=
  match cell.vegetable with
  | some v =>
    if ro == v.anchor_row && co == v.anchor_col && v.span == 1 then
      .SelfContained v.id v.name v.reason v.plants_per_cell
    else if ro == v.anchor_row && co == v.anchor_col then
      .Overflowing v.id v.name v.reason v.plants_per_cell v.span v.span
    else .Overflowed v.anchor_row v.anchor_col
  | none => if cell.blocked then .Blocked else .Empty

/-- `build_response`. -/
def build_response (g : GardenGrid) (rows cols : Nat) (score : Int)
    (warnings : List String) : PlanResponse :=
  { grid := g.cells.enum.map (fun ro_row =>
      ro_row.2.enum.map (fun co_cell => classify_cell ro_row.1 co_cell.1 co_cell.2))
    rows := rows, cols := cols, score := score, warnings := warnings }

/-- The warning pushed when the grid is already fully occupied. -/
def fully_occupied_warning : String :=
  "The grid is already fully occupied by the existing layout."

/-- `plan_garden`: validation, grid initialisation, the fully-occupied
short-circuit, phase 1 (explicit queue) and phase 2 (iterative fill), then
response building. `none` models a panic (out-of-bounds layout write). -/
def plan_garden (db : List Vegetable) (candidates : List Vegetable)
    (request : PlanRequest) : Option (Except String PlanResponse) :=
  match validate_layout request.layout with
  | .error e => some (.error e)
  | .ok (rows, cols) =>
    match initialize_grid db rows cols request.layout with
    | none => none
    | some (grid, warnings) =>
      let occ := count_grid_occupancy grid
      let available_cells := rows * cols - occ.2
      if occ.1 ≥ available_cells then
        some (.ok (build_response grid rows cols 0 (warnings ++ [fully_occupied_warning])))
      else
        let preferences := request.preferences.getD []
        let free_cells := available_cells - occ.1
        let qm := build_placement_queue candidates preferences free_cells
        let phase1 := place_candidates grid qm.1 qm.2 rows cols
        match fill_remaining_cells phase1.1 candidates rows cols with
        | none => none
        | some (grid2, score_phase2) =>
          let warnings2 :=
            match empty_cells_warning grid2 with
            | some w => warnings ++ [w]
            | none => warnings
          some (.ok (build_response grid2 rows cols (phase1.2 + score_phase2) warnings2))

/-! ## Derived notions used by the claim statements -/

/-- Per-neighbour score contribution: +2 when in the beneficial list,
−3 when in the detrimental list, both when in both. -/
def companion_delta (v : Vegetable) (n : String) : Int :=
  (if v.good_companions.any (fun c => c == n) then GOOD_COMPANION_SCORE else 0) +
  (if v.bad_companions.any (fun c => c == n) then BAD_COMPANION_SCORE else 0)

/-- Row-major order on scan positions. -/
def rmBefore (p q : Nat × Nat) : Prop :=
  p.1 < q.1 ∨ (p.1 = q.1 ∧ p.2 < q.2)

/-- Some cell of the response grid holding anchor id `a` is axis-adjacent to
one holding anchor id `b` (span-1 placements are all anchors). -/
def hasAdjacentPair (grid : List (List PlannedCell)) (a b : String) : Bool :=
  let cellId := fun (r c : Nat) => ((grid.getD r []).getD c .Empty).id
  (List.range grid.length).any fun r =>
    (List.range ((grid.getD r []).length)).any fun c =>
      (cellId r c == some a && (cellId r (c + 1) == some b || cellId (r + 1) c == some b)) ||
      (cellId r c == some b && (cellId r (c + 1) == some a || cellId (r + 1) c == some a))

/-! ## Concrete instances for counterexamples and witnesses -/

/-- Tomato-like span-2 variety (spacing 60 cm) used for the duplicate-neighbour
counterexample. -/
def dupVeg : Vegetable :=
  ⟨"tomato", "Tomato", [.Summer], [], [], [], 60, ["basil"], ["fennel"], false, .Fruit⟩

/-- 2×4 grid with `dupVeg` filling the 2×2 block anchored at (0, 0): a
reachable grid state (one `fill_block` commit on a fresh grid). -/
def dupGrid : GardenGrid := fill_block (GardenGrid.new 2 4) dupVeg 0 0 "r"

/-- The placement value stored in each of `dupGrid`'s four occupied cells. -/
def dupPv : PlacedVegetable := ⟨"tomato", "Tomato", "r", 1, 2, 0, 0⟩

/-- Span-1 variety listing `"b"` as detrimental. -/
def vegA : Vegetable := ⟨"a", "A", [.Summer], [], [], [], 30, [], ["b"], true, .Herb⟩

/-- Span-1 variety listing `"a"` as detrimental (mutually detrimental with `vegA`). -/
def vegB : Vegetable := ⟨"b", "B", [.Summer], [], [], [], 30, [], ["a"], true, .Herb⟩

/-- A 3×3 all-free request. -/
def req3x3 : PlanRequest :=
  ⟨.Summer, none, none, none, none, none, List.replicate 3 (List.replicate 3 .Free)⟩

/-- A 3×3 fully blocked request. -/
def req3x3Blocked : PlanRequest :=
  ⟨.Summer, none, none, none, none, none,
   List.replicate 3 (List.replicate 3 (.Blocked true))⟩

/-- Span-1 variety that lists `"tomato"` as detrimental (used as the placed
candidate in the C3 witness, on a grid already holding only tomato). -/
def vegAnti : Vegetable :=
  ⟨"anti", "Anti", [.Summer], [], [], [], 30, [], ["tomato"], true, .Herb⟩

/-- A structurally valid request (non-empty layout, non-empty first row)
whose second row is longer than the first and contains a blocked cell beyond
the first row's width — the input on which `initialize_grid` indexes out of
bounds. -/
def raggedReq : PlanRequest :=
  ⟨.Summer, none, none, none, none, none, [[.Free], [.Blocked true, .Blocked true]]⟩

/-- The grid state produced by initialising `req3x3Blocked`'s layout. -/
def blockedGrid3 : GardenGrid :=
  ⟨3, 3, List.replicate 3 (List.replicate 3 ⟨none, true⟩)⟩

/-- The response grid of planning `req3x3` with `[vegA, vegB]` alone as the
candidate list (and an empty catalogue; the layout has no pre-planted cells). -/
def adjCeGrid : List (List PlannedCell) :=
  match plan_garden [] [vegA, vegB] req3x3 with
  | some (.ok resp) => resp.grid
  | _ => []

/-- Modelled from the spec (§4.3), for the refinement comparison of C7: the
filter predicate as the spec words it — season membership, each optional
filter when requested, and beginner-suitability when the skill level is
beginner. -/
def spec_matches (request : PlanRequest) (v : Vegetable) : Bool :=
  v.seasons.contains request.season &&
  (match request.sun with
    | some sun => v.sun_requirement.contains sun
    | none => true) &&
  (match request.soil with
    | some soil => v.soil_types.contains soil
    | none => true) &&
  (match request.region with
    | some region => v.regions.contains region
    | none => true) &&
  (!(request.level == some Level.Beginner) || v.beginner_friendly)

/-- Modelled from the spec (§4.3): the ordering key — preference-list
position, ascending, in the first bucket; popularity rank, ascending, in the
second, unknown identifiers ranked last via `french_rank`'s 999 default. -/
def spec_key (preferences : List PreferenceEntry) (v : Vegetable) : Nat × Nat :=
  match preferences.findIdx? (fun p => p.id == v.id) with
  | some i => (0, i)
  | none => (1, french_rank v.id)

/-- The lexicographic comparison induced by `spec_key`. -/
def spec_le (preferences : List PreferenceEntry) (a b : Vegetable) : Bool :=
  (spec_key preferences a).1 < (spec_key preferences b).1 ||
    ((spec_key preferences a).1 == (spec_key preferences b).1 &&
      (spec_key preferences a).2 ≤ (spec_key preferences b).2)

/-- Modelled from the spec (§4.3): filter, then stable sort by the key. -/
def ranker_spec (db : List Vegetable) (request : PlanRequest) : List Vegetable :=
  (db.filter (spec_matches request)).mergeSort (spec_le (request.preferences.getD []))

/-- Layout entries that cause no grid write in `initialize_grid`:
free cells, `Blocked(false)`, and pre-planted cells whose identifier does not
resolve in the catalogue. -/
def nonWriting (db : List Vegetable) : LayoutCell → Prop
  | .Free => True
  | .Planted id => get_vegetable_by_id db id = none
  | .Blocked b => b = false

/-! ## Helper lemmas: grid reads and writes -/

theorem getCell_new (rows cols r c : Nat) :
    getCell (GardenGrid.new rows cols) r c = ⟨none, false⟩ := by
  simp only [getCell, GardenGrid.new, List.getD_eq_getElem?_getD, List.getElem?_replicate]
  by_cases hr : r < rows
  · simp only [hr, if_true, Option.getD_some, List.getElem?_replicate]
    by_cases hc : c < cols <;> simp [hc, default]
  · simp [hr, default]

theorem writeCell_getCell_ne {g g' : GardenGrid} {r c : Nat} {f : Cell → Cell}
    (h : writeCell g r c f = some g') {r2 c2 : Nat} (hne : ¬(r2 = r ∧ c2 = c)) :
    getCell g' r2 c2 = getCell g r2 c2 := by
  unfold writeCell at h
  split at h
  · cases h
    simp only [getCell, List.getD_eq_getElem?_getD]
    by_cases hr : r2 = r
    · subst hr
      have hc2 : c2 ≠ c := fun hc => hne ⟨rfl, hc⟩
      rw [List.getElem?_set_self (by omega)]
      simp only [Option.getD_some]
      rw [List.getElem?_set_ne (by omega)]
    · rw [List.getElem?_set_ne (by omega)]
  · cases h

theorem writeCell_shape {g g' : GardenGrid} {r c : Nat} {f : Cell → Cell}
    (h : writeCell g r c f = some g') :
    g'.rows = g.rows ∧ g'.cols = g.cols ∧ g'.cells.length = g.cells.length ∧
      ∀ j, (g'.cells.getD j []).length = (g.cells.getD j []).length := by
  unfold writeCell at h
  split at h
  · cases h
    refine ⟨rfl, rfl, List.length_set .., fun j => ?_⟩
    simp only [List.getD_eq_getElem?_getD]
    by_cases hj : j = r
    · subst hj
      rw [List.getElem?_set_self (by omega)]
      simp [List.length_set, List.getD_eq_getElem?_getD]
    · rw [List.getElem?_set_ne (by omega)]
  · cases h

/-! ## Helper lemmas: `initialize_grid` -/

theorem init_cell_spec {db : List Vegetable} {r c : Nat} {cell : LayoutCell}
    {g g' : GardenGrid} {ws ws' : List String}
    (h : init_cell db r c cell (g, ws) = some (g', ws')) :
    (∃ t, ws' = ws ++ t) ∧
      ∀ r2 c2, ¬(r2 = r ∧ c2 = c) → getCell g' r2 c2 = getCell g r2 c2 := by
  cases cell with
  | Free =>
    simp only [init_cell] at h
    cases h
    exact ⟨⟨[], by simp⟩, fun _ _ _ => rfl⟩
  | Blocked b =>
    cases b with
    | false =>
      simp only [init_cell] at h
      cases h
      exact ⟨⟨[], by simp⟩, fun _ _ _ => rfl⟩
    | true =>
      simp only [init_cell, Option.map_eq_some'] at h
      obtain ⟨g2, hw, hg⟩ := h
      cases hg
      exact ⟨⟨[], by simp⟩, fun r2 c2 hne => writeCell_getCell_ne hw hne⟩
  | Planted id =>
    simp only [init_cell] at h
    cases hl : get_vegetable_by_id db id with
    | some v =>
      rw [hl] at h
      simp only [Option.map_eq_some'] at h
      obtain ⟨g2, hw, hg⟩ := h
      cases hg
      exact ⟨⟨[], by simp⟩, fun r2 c2 hne => writeCell_getCell_ne hw hne⟩
    | none =>
      rw [hl] at h
      cases h
      exact ⟨⟨[not_found_warning id], rfl⟩, fun _ _ _ => rfl⟩

theorem init_cell_nonWriting {db : List Vegetable} {r c : Nat} {cell : LayoutCell}
    {g g' : GardenGrid} {ws ws' : List String} (hnw : nonWriting db cell)
    (h : init_cell db r c cell (g, ws) = some (g', ws')) : g' = g := by
  cases cell with
  | Free =>
    simp only [init_cell] at h
    cases h; rfl
  | Blocked b =>
    cases hnw
    simp only [init_cell] at h
    cases h; rfl
  | Planted id =>
    simp only [nonWriting] at hnw
    simp only [init_cell, hnw] at h
    cases h; rfl

theorem init_row_spec {db : List Vegetable} {r : Nat} :
    ∀ (cells : List LayoutCell) (c : Nat) {g g' : GardenGrid} {ws ws' : List String},
    init_row db r c cells (g, ws) = some (g', ws') →
    (∃ t, ws' = ws ++ t) ∧
      ∀ r2 c2,
        (r2 ≠ r ∨ ∀ i, i < cells.length → c + i = c2 → nonWriting db (cells.getD i .Free)) →
        getCell g' r2 c2 = getCell g r2 c2 := by
  intro cells
  induction cells with
  | nil =>
    intro c g g' ws ws' h
    cases h
    exact ⟨⟨[], by simp⟩, fun _ _ _ => rfl⟩
  | cons e rest ih =>
    intro c g g' ws ws' h
    simp only [init_row] at h
    cases h1 : init_cell db r c e (g, ws) with
    | none => rw [h1] at h; cases h
    | some st1 =>
      rw [h1] at h
      obtain ⟨g1, ws1⟩ := st1
      obtain ⟨⟨t1, hws1⟩, hpres1⟩ := init_cell_spec h1
      obtain ⟨⟨t2, hws2⟩, hpres2⟩ := ih (c + 1) h
      refine ⟨⟨t1 ++ t2, by rw [hws2, hws1, List.append_assoc]⟩, ?_⟩
      intro r2 c2 hq
      rcases hq with hq | hq
      · rw [hpres2 r2 c2 (Or.inl hq), hpres1 r2 c2 (fun hp => hq hp.1)]
      · by_cases hc2 : c2 = c ∧ r2 = r
        · obtain ⟨hceq, hreq⟩ := hc2
          have hnw : nonWriting db e := by
            have h0 := hq 0 (by simp) (by omega)
            simpa using h0
          have hg1 : g1 = g := init_cell_nonWriting hnw h1
          rw [← hg1]
          exact hpres2 r2 c2 (Or.inr (fun i hi hci => ((by omega : False)).elim))
        · have hstep : getCell g1 r2 c2 = getCell g r2 c2 :=
            hpres1 r2 c2 (fun hp => hc2 ⟨hp.2, hp.1⟩)
          have hrest : getCell g' r2 c2 = getCell g1 r2 c2 := by
            refine hpres2 r2 c2 (Or.inr ?_)
            intro i hi hci
            have := hq (i + 1) (by simpa using Nat.succ_lt_succ hi) (by omega)
            simpa using this
          rw [hrest, hstep]

theorem init_row_warn {db : List Vegetable} {r : Nat} {id : String}
    (hlook : get_vegetable_by_id db id = none) :
    ∀ (cells : List LayoutCell) (c : Nat) {g g' : GardenGrid} {ws ws' : List String},
    init_row db r c cells (g, ws) = some (g', ws') →
    ∀ i, i < cells.length → cells.getD i .Free = .Planted id →
    not_found_warning id ∈ ws' := by
  intro cells
  induction cells with
  | nil => intro c g g' ws ws' h i hi; simp at hi
  | cons e rest ih =>
    intro c g g' ws ws' h i hi hcell
    simp only [init_row] at h
    cases h1 : init_cell db r c e (g, ws) with
    | none => rw [h1] at h; cases h
    | some st1 =>
      rw [h1] at h
      obtain ⟨g1, ws1⟩ := st1
      cases i with
      | zero =>
        have he : e = .Planted id := by simpa using hcell
        subst he
        simp only [init_cell, hlook] at h1
        cases h1
        obtain ⟨⟨t, hws⟩, _⟩ := init_row_spec rest (c + 1) h
        rw [hws]
        simp
      | succ i =>
        exact ih (c + 1) h i (by simpa using Nat.lt_of_succ_lt_succ hi) (by simpa using hcell)

theorem init_rows_spec {db : List Vegetable} :
    ∀ (rowsL : List (List LayoutCell)) (r : Nat) {g g' : GardenGrid} {ws ws' : List String},
    init_rows db r rowsL (g, ws) = some (g', ws') →
    (∃ t, ws' = ws ++ t) ∧
      ∀ rT cT,
        (∀ j, j < rowsL.length → r + j = rT →
          ∀ i, i < (rowsL.getD j []).length → i = cT →
            nonWriting db ((rowsL.getD j []).getD i .Free)) →
        getCell g' rT cT = getCell g rT cT := by
  intro rowsL
  induction rowsL with
  | nil =>
    intro r g g' ws ws' h
    cases h
    exact ⟨⟨[], by simp⟩, fun _ _ _ => rfl⟩
  | cons row rest ih =>
    intro r g g' ws ws' h
    simp only [init_rows] at h
    cases h1 : init_row db r 0 row (g, ws) with
    | none => rw [h1] at h; cases h
    | some st1 =>
      rw [h1] at h
      obtain ⟨g1, ws1⟩ := st1
      obtain ⟨⟨t1, hws1⟩, hpres1⟩ := init_row_spec row 0 h1
      obtain ⟨⟨t2, hws2⟩, hpres2⟩ := ih (r + 1) h
      refine ⟨⟨t1 ++ t2, by rw [hws2, hws1, List.append_assoc]⟩, ?_⟩
      intro rT cT hcond
      have hrest : getCell g' rT cT = getCell g1 rT cT := by
        refine hpres2 rT cT ?_
        intro j hj hrj i hi hic
        have := hcond (j + 1) (by simpa using Nat.succ_lt_succ hj) (by omega) i
          (by simpa using hi) hic
        simpa using this
      have hstep : getCell g1 rT cT = getCell g rT cT := by
        by_cases hr : rT = r
        · subst hr
          refine hpres1 rT cT (Or.inr ?_)
          intro i hi hci
          have := hcond 0 (by simp) (by omega) i (by simpa using hi) (by omega)
          simpa using this
        · exact hpres1 rT cT (Or.inl hr)
      rw [hrest, hstep]

theorem init_rows_warn {db : List Vegetable} {id : String}
    (hlook : get_vegetable_by_id db id = none) :
    ∀ (rowsL : List (List LayoutCell)) (r : Nat) {g g' : GardenGrid} {ws ws' : List String},
    init_rows db r rowsL (g, ws) = some (g', ws') →
    ∀ j i, j < rowsL.length → i < (rowsL.getD j []).length →
    (rowsL.getD j []).getD i .Free = .Planted id →
    not_found_warning id ∈ ws' := by
  intro rowsL
  induction rowsL with
  | nil => intro r g g' ws ws' h j i hj; simp at hj
  | cons row rest ih =>
    intro r g g' ws ws' h j i hj hi hcell
    simp only [init_rows] at h
    cases h1 : init_row db r 0 row (g, ws) with
    | none => rw [h1] at h; cases h
    | some st1 =>
      rw [h1] at h
      obtain ⟨g1, ws1⟩ := st1
      cases j with
      | zero =>
        have hmem : not_found_warning id ∈ ws1 :=
          init_row_warn hlook row 0 h1 i (by simpa using hi) (by simpa using hcell)
        obtain ⟨⟨t, hws⟩, _⟩ := init_rows_spec rest (r + 1) h
        rw [hws]
        exact List.mem_append_left _ hmem
      | succ j =>
        exact ih (r + 1) h j i (by simpa using Nat.lt_of_succ_lt_succ hj)
          (by simpa using hi) (by simpa using hcell)

theorem WF_new (rows cols : Nat) : WF (GardenGrid.new rows cols) := by
  refine ⟨by simp [GardenGrid.new], ?_⟩
  intro row hrow
  simp only [GardenGrid.new] at hrow
  rw [List.eq_of_mem_replicate hrow]
  simp [GardenGrid.new]

theorem sameShape_refl (g : GardenGrid) : sameShape g g :=
  ⟨rfl, rfl, rfl, fun _ => rfl⟩

theorem sameShape_trans {g1 g2 g3 : GardenGrid} (h12 : sameShape g1 g2)
    (h23 : sameShape g2 g3) : sameShape g1 g3 :=
  ⟨h23.1.trans h12.1, h23.2.1.trans h12.2.1, h23.2.2.1.trans h12.2.2.1,
   fun j => (h23.2.2.2 j).trans (h12.2.2.2 j)⟩

theorem writeCell_sameShape {g g2 : GardenGrid} {r c : Nat} {f : Cell → Cell}
    (h : writeCell g r c f = some g2) : sameShape g g2 := by
  obtain ⟨h1, h2, h3, h4⟩ := writeCell_shape h
  exact ⟨h1, h2, h3, h4⟩

theorem init_cell_sameShape {db : List Vegetable} {r c : Nat} {cell : LayoutCell}
    {g g2 : GardenGrid} {ws ws2 : List String}
    (h : init_cell db r c cell (g, ws) = some (g2, ws2)) : sameShape g g2 := by
  cases cell with
  | Free =>
    simp only [init_cell] at h
    cases h
    exact sameShape_refl g
  | Blocked b =>
    cases b with
    | false =>
      simp only [init_cell] at h
      cases h
      exact sameShape_refl g
    | true =>
      simp only [init_cell, Option.map_eq_some'] at h
      obtain ⟨g3, hw, hg⟩ := h
      cases hg
      exact writeCell_sameShape hw
  | Planted id =>
    simp only [init_cell] at h
    cases hl : get_vegetable_by_id db id with
    | some v =>
      rw [hl] at h
      simp only [Option.map_eq_some'] at h
      obtain ⟨g3, hw, hg⟩ := h
      cases hg
      exact writeCell_sameShape hw
    | none =>
      rw [hl] at h
      cases h
      exact sameShape_refl g

theorem init_cell_some (db : List Vegetable) (r c : Nat) (cell : LayoutCell)
    (g : GardenGrid) (ws : List String) (hr : r < g.cells.length)
    (hc : c < (g.cells.getD r []).length) :
    ∃ st2, init_cell db r c cell (g, ws) = some st2 := by
  have hwrite : ∀ f, ∃ g2, writeCell g r c f = some g2 := by
    intro f
    unfold writeCell
    rw [if_pos ⟨hr, hc⟩]
    exact ⟨_, rfl⟩
  cases cell with
  | Free => exact ⟨_, rfl⟩
  | Blocked b =>
    cases b with
    | false => exact ⟨_, rfl⟩
    | true =>
      obtain ⟨g2, hw⟩ := hwrite (fun cl => { cl with blocked := true })
      exact ⟨(g2, ws), by simp only [init_cell, hw, Option.map_some']⟩
  | Planted id =>
    cases hl : get_vegetable_by_id db id with
    | some v =>
      obtain ⟨g2, hw⟩ := hwrite (fun cl =>
        { cl with vegetable := some (⟨v.id, v.name, "Present in the existing layout.",
            plants_per_cell v.spacing_cm, 1, r, c⟩ : PlacedVegetable) })
      exact ⟨(g2, ws), by simp only [init_cell, hl, hw, Option.map_some']⟩
    | none => exact ⟨(g, ws ++ [not_found_warning id]), by simp only [init_cell, hl]⟩

theorem init_row_some_shape {db : List Vegetable} {r : Nat} :
    ∀ (cells : List LayoutCell) (c : Nat) (g : GardenGrid) (ws : List String),
    r < g.cells.length → c + cells.length ≤ (g.cells.getD r []).length →
    ∃ g2 ws2, init_row db r c cells (g, ws) = some (g2, ws2) ∧ sameShape g g2 := by
  intro cells
  induction cells with
  | nil =>
    intro c g ws _ _
    exact ⟨g, ws, rfl, sameShape_refl g⟩
  | cons e rest ih =>
    intro c g ws hr hc
    obtain ⟨⟨g1, ws1⟩, h1⟩ := init_cell_some db r c e g ws hr
      (by simp only [List.length_cons] at hc; omega)
    have hsh1 := init_cell_sameShape h1
    obtain ⟨g2, ws2, h2, hsh2⟩ := ih (c + 1) g1 ws1
      (by rw [hsh1.2.2.1]; exact hr)
      (by rw [hsh1.2.2.2 r]; simp only [List.length_cons] at hc; omega)
    refine ⟨g2, ws2, ?_, sameShape_trans hsh1 hsh2⟩
    simp only [init_row, h1]
    exact h2

theorem init_rows_some_shape {db : List Vegetable} :
    ∀ (rowsL : List (List LayoutCell)) (r : Nat) (g : GardenGrid) (ws : List String),
    (∀ j, j < rowsL.length → r + j < g.cells.length ∧
      (rowsL.getD j []).length ≤ (g.cells.getD (r + j) []).length) →
    ∃ g2 ws2, init_rows db r rowsL (g, ws) = some (g2, ws2) ∧ sameShape g g2 := by
  intro rowsL
  induction rowsL with
  | nil =>
    intro r g ws _
    exact ⟨g, ws, rfl, sameShape_refl g⟩
  | cons row rest ih =>
    intro r g ws hbound
    obtain ⟨hr0, hc0⟩ := hbound 0 (by simp)
    obtain ⟨g1, ws1, h1, hsh1⟩ := init_row_some_shape row 0 g ws
      (by simpa using hr0) (by simpa using hc0)
    obtain ⟨g2, ws2, h2, hsh2⟩ := ih (r + 1) g1 ws1 (by
      intro j hj
      obtain ⟨ha, hb⟩ := hbound (j + 1) (by simpa using Nat.succ_lt_succ hj)
      constructor
      · rw [hsh1.2.2.1]
        omega
      · rw [hsh1.2.2.2 (r + 1 + j)]
        have hidx : r + (j + 1) = r + 1 + j := by omega
        rw [hidx] at hb
        simpa using hb)
    refine ⟨g2, ws2, ?_, sameShape_trans hsh1 hsh2⟩
    have hstep : init_rows db r (row :: rest) (g, ws) = init_rows db (r + 1) rest (g1, ws1) := by
      simp only [init_rows]
      rw [h1]
    rw [hstep]
    exact h2

theorem initialize_grid_some {db : List Vegetable} {layout : List (List LayoutCell)}
    (hrag : ∀ row ∈ layout, row.length ≤ (layout.headD []).length) :
    ∃ g2 ws2, initialize_grid db layout.length (layout.headD []).length layout =
      some (g2, ws2) ∧ WF g2 := by
  have hbase := WF_new layout.length (layout.headD []).length
  have hbound : ∀ j, j < layout.length →
      0 + j < (GardenGrid.new layout.length (layout.headD []).length).cells.length ∧
      (layout.getD j []).length ≤
        ((GardenGrid.new layout.length (layout.headD []).length).cells.getD (0 + j) []).length := by
    intro j hj
    constructor
    · simpa [GardenGrid.new] using hj
    · have hmem : layout.getD j [] ∈ layout := by
        rw [List.getD_eq_getElem?_getD, List.getElem?_eq_getElem hj]
        simp only [Option.getD_some]
        exact List.getElem_mem hj
      have hle := hrag _ hmem
      simp only [GardenGrid.new, Nat.zero_add, List.getD_eq_getElem?_getD,
        List.getElem?_replicate, if_pos hj, Option.getD_some, List.length_replicate]
      simpa [List.getD_eq_getElem?_getD] using hle
  obtain ⟨g2, ws2, hrun, hsh⟩ := init_rows_some_shape layout 0
    (GardenGrid.new layout.length (layout.headD []).length) [] hbound
  refine ⟨g2, ws2, hrun, ?_, ?_⟩
  · rw [hsh.2.2.1, hsh.1]
    exact hbase.1
  · intro row hrow
    rw [List.mem_iff_getElem] at hrow
    obtain ⟨j, hj, hrow⟩ := hrow
    have hlen := hsh.2.2.2 j
    rw [List.getD_eq_getElem?_getD, List.getElem?_eq_getElem hj] at hlen
    simp only [Option.getD_some] at hlen
    rw [← hrow, hlen, hsh.2.1]
    have hjlt : j < (GardenGrid.new layout.length (layout.headD []).length).cells.length := by
      rw [← hsh.2.2.1]
      exact hj
    refine hbase.2 _ ?_
    rw [List.getD_eq_getElem?_getD, List.getElem?_eq_getElem hjlt]
    simp only [Option.getD_some]
    exact List.getElem_mem hjlt

/-! ## Helper lemmas: companion scorer -/

theorem companion_foldl_eq (v : Vegetable) (l : List String) (a : Int) :
    l.foldl
      (fun score neighbor_id =>
        let score := if v.good_companions.any (fun c => c == neighbor_id) then
            score + GOOD_COMPANION_SCORE else score
        if v.bad_companions.any (fun c => c == neighbor_id) then
          score + BAD_COMPANION_SCORE else score)
      a = a + (l.map (companion_delta v)).sum := by
  induction l generalizing a with
  | nil => simp
  | cons n t ih =>
    rw [List.foldl_cons, ih]
    simp only [List.map_cons, List.sum_cons, companion_delta]
    split <;> split <;> ring

theorem companion_score_eq_sum (v : Vegetable) (l : List String) :
    companion_score v l = (l.map (companion_delta v)).sum := by
  have h := companion_foldl_eq v l 0
  simpa [companion_score] using h

/-! ## Helper lemmas: `find_best_block` -/

theorem mem_block_positions {rows cols span : Nat} {p : Nat × Nat} :
    p ∈ block_positions rows cols span ↔
      p.1 < rows - span + 1 ∧ p.2 < cols - span + 1 := by
  obtain ⟨r, c⟩ := p
  simp only [block_positions, List.mem_flatMap, List.mem_map, List.mem_range]
  constructor
  · rintro ⟨a, ha, b, hb, hp⟩
    cases hp
    exact ⟨ha, hb⟩
  · rintro ⟨h1, h2⟩
    exact ⟨r, h1, c, h2, rfl⟩

theorem pairwise_block_positions (rows cols span : Nat) :
    (block_positions rows cols span).Pairwise rmBefore := by
  unfold block_positions
  rw [List.flatMap_def, List.pairwise_flatten]
  constructor
  · intro l hl
    simp only [List.mem_map, List.mem_range] at hl
    obtain ⟨r, _, hl⟩ := hl
    subst hl
    rw [List.pairwise_map]
    exact (List.pairwise_lt_range _).imp (fun h => Or.inr ⟨rfl, h⟩)
  · rw [List.pairwise_map]
    refine (List.pairwise_lt_range _).imp ?_
    intro r1 r2 h12 x hx y hy
    simp only [List.mem_map, List.mem_range] at hx hy
    obtain ⟨c1, _, hx⟩ := hx
    obtain ⟨c2, _, hy⟩ := hy
    subst hx; subst hy
    exact Or.inl h12

theorem is_block_free_mem {g : GardenGrid} {rows cols span r c : Nat}
    (hr : rows = g.rows) (hc : cols = g.cols)
    (hfree : is_block_free g r c span = true) :
    (r, c) ∈ block_positions rows cols span := by
  rw [mem_block_positions]
  unfold is_block_free at hfree
  split at hfree
  · exact Bool.noConfusion hfree
  · rename_i hbound
    rw [Bool.or_eq_true, not_or] at hbound
    obtain ⟨h1, h2⟩ := hbound
    simp only [decide_eq_true_eq] at h1 h2
    omega

theorem fbb_step_not_free {g : GardenGrid} {v : Vegetable} {span : Nat}
    {best : Option (Nat × Nat × Int)} {p : Nat × Nat}
    (hfree : is_block_free g p.1 p.2 span = false) :
    fbb_step g v span best p = best := by
  unfold fbb_step
  rw [hfree]
  rfl

theorem fbb_step_free_none {g : GardenGrid} {v : Vegetable} {span : Nat} {p : Nat × Nat}
    (hfree : is_block_free g p.1 p.2 span = true) :
    fbb_step g v span none p = some (p.1, p.2, block_score g v p.1 p.2 span) := by
  unfold fbb_step
  rw [hfree]
  rfl

theorem fbb_step_free_some {g : GardenGrid} {v : Vegetable} {span : Nat} {p : Nat × Nat}
    {r0 c0 : Nat} {s0 : Int} (hfree : is_block_free g p.1 p.2 span = true) :
    fbb_step g v span (some (r0, c0, s0)) p =
      if block_score g v p.1 p.2 span > s0 then
        some (p.1, p.2, block_score g v p.1 p.2 span)
      else some (r0, c0, s0) := by
  unfold fbb_step
  rw [hfree]
  rfl

theorem fbb_foldl_eq_none {g : GardenGrid} {v : Vegetable} {span : Nat} :
    ∀ (l : List (Nat × Nat)) (best : Option (Nat × Nat × Int)),
    l.foldl (fbb_step g v span) best = none →
    best = none ∧ ∀ p ∈ l, is_block_free g p.1 p.2 span = false := by
  intro l
  induction l with
  | nil => intro best h; exact ⟨h, by simp⟩
  | cons p t ih =>
    intro best h
    rw [List.foldl_cons] at h
    obtain ⟨hstep, hrest⟩ := ih _ h
    by_cases hfree : is_block_free g p.1 p.2 span = true
    · exfalso
      cases best with
      | none => rw [fbb_step_free_none hfree] at hstep; exact Option.noConfusion hstep
      | some b =>
        obtain ⟨r0, c0, s0⟩ := b
        rw [fbb_step_free_some hfree] at hstep
        split at hstep <;> exact Option.noConfusion hstep
    · have hfree2 : is_block_free g p.1 p.2 span = false := by
        simpa using hfree
      refine ⟨by rwa [fbb_step_not_free hfree2] at hstep, ?_⟩
      intro q hq
      rcases List.mem_cons.mp hq with hq | hq
      · rw [hq]; exact hfree2
      · exact hrest q hq

theorem fbb_le {g : GardenGrid} {v : Vegetable} {span : Nat} :
    ∀ (l : List (Nat × Nat)) (best : Option (Nat × Nat × Int)) (r c : Nat) (s : Int),
    l.foldl (fbb_step g v span) best = some (r, c, s) →
    (∀ r0 c0 s0, best = some (r0, c0, s0) → s0 ≤ s) ∧
      ∀ p ∈ l, is_block_free g p.1 p.2 span = true → block_score g v p.1 p.2 span ≤ s := by
  intro l
  induction l with
  | nil =>
    intro best r c s h
    refine ⟨?_, by simp⟩
    intro r0 c0 s0 hb
    rw [List.foldl_nil] at h
    rw [hb] at h
    cases h
    rfl
  | cons p t ih =>
    intro best r c s h
    rw [List.foldl_cons] at h
    by_cases hfree : is_block_free g p.1 p.2 span = true
    · have hstep : ∀ r0 c0 s0, best = some (r0, c0, s0) →
          ∃ r1 c1 s1, fbb_step g v span best p = some (r1, c1, s1) ∧ s0 ≤ s1 := by
        intro r0 c0 s0 hb
        rw [hb, fbb_step_free_some hfree]
        by_cases hgt : block_score g v p.1 p.2 span > s0
        · exact ⟨p.1, p.2, block_score g v p.1 p.2 span, by rw [if_pos hgt], le_of_lt hgt⟩
        · exact ⟨r0, c0, s0, by rw [if_neg hgt], le_refl _⟩
      have hp : block_score g v p.1 p.2 span ≤ s := by
        cases hb : best with
        | none =>
          rw [hb, fbb_step_free_none hfree] at h
          exact (ih _ r c s h).1 p.1 p.2 _ rfl
        | some b =>
          obtain ⟨r0, c0, s0⟩ := b
          rw [hb, fbb_step_free_some hfree] at h
          by_cases hgt : block_score g v p.1 p.2 span > s0
          · rw [if_pos hgt] at h
            exact (ih _ r c s h).1 p.1 p.2 _ rfl
          · rw [if_neg hgt] at h
            have := (ih _ r c s h).1 r0 c0 s0 rfl
            omega
      refine ⟨?_, ?_⟩
      · intro r0 c0 s0 hb
        obtain ⟨r1, c1, s1, hs1, hle⟩ := hstep r0 c0 s0 hb
        rw [hs1] at h
        have := (ih _ r c s h).1 r1 c1 s1 rfl
        omega
      · intro q hq hqfree
        rcases List.mem_cons.mp hq with hq | hq
        · rw [hq]; exact hp
        · exact (ih _ r c s h).2 q hq hqfree
    · have hfree2 : is_block_free g p.1 p.2 span = false := by simpa using hfree
      rw [fbb_step_not_free hfree2] at h
      refine ⟨(ih _ r c s h).1, ?_⟩
      intro q hq hqfree
      rcases List.mem_cons.mp hq with hq | hq
      · rw [hq] at hqfree
        rw [hqfree] at hfree2
        exact Bool.noConfusion hfree2
      · exact (ih _ r c s h).2 q hq hqfree

theorem fbb_decomp {g : GardenGrid} {v : Vegetable} {span : Nat} :
    ∀ (l : List (Nat × Nat)) (best : Option (Nat × Nat × Int)) (r c : Nat) (s : Int),
    l.foldl (fbb_step g v span) best = some (r, c, s) →
    best = some (r, c, s) ∨
      ∃ l1 l2, l = l1 ++ (r, c) :: l2 ∧ is_block_free g r c span = true ∧
        s = block_score g v r c span ∧
        (∀ p ∈ l1, is_block_free g p.1 p.2 span = true → block_score g v p.1 p.2 span < s) ∧
        (∀ r0 c0 s0, best = some (r0, c0, s0) → s0 < s) := by
  intro l
  induction l with
  | nil =>
    intro best r c s h
    rw [List.foldl_nil] at h
    exact Or.inl h
  | cons p t ih =>
    intro best r c s h
    rw [List.foldl_cons] at h
    by_cases hfree : is_block_free g p.1 p.2 span = true
    · cases hb : best with
      | none =>
        rw [hb, fbb_step_free_none hfree] at h
        rcases ih _ r c s h with hkeep | ⟨t1, t2, hsplit, hf, hs, hlt, hbest⟩
        · -- the head position became the best and survived
          injection hkeep with hkeep
          simp only [Prod.mk.injEq] at hkeep
          obtain ⟨h1, h2, h3⟩ := hkeep
          refine Or.inr ⟨[], t, ?_, ?_, ?_, by simp, by simp [hb]⟩
          · simp only [List.nil_append, List.cons.injEq]
            exact ⟨Prod.ext h1 h2, trivial⟩
          · rwa [← h1, ← h2]
          · rw [← h3, ← h1, ← h2]
        · refine Or.inr ⟨p :: t1, t2, by simp [hsplit], hf, hs, ?_, by simp [hb]⟩
          intro q hq hqfree
          rcases List.mem_cons.mp hq with hq | hq
          · have := hbest p.1 p.2 (block_score g v p.1 p.2 span) rfl
            rw [hq]
            omega
          · exact hlt q hq hqfree
      | some b =>
        obtain ⟨r0, c0, s0⟩ := b
        rw [hb, fbb_step_free_some hfree] at h
        by_cases hgt : block_score g v p.1 p.2 span > s0
        · rw [if_pos hgt] at h
          rcases ih _ r c s h with hkeep | ⟨t1, t2, hsplit, hf, hs, hlt, hbest⟩
          · injection hkeep with hkeep
            simp only [Prod.mk.injEq] at hkeep
            obtain ⟨h1, h2, h3⟩ := hkeep
            refine Or.inr ⟨[], t, ?_, ?_, ?_, by simp, ?_⟩
            · simp only [List.nil_append, List.cons.injEq]
              exact ⟨Prod.ext h1 h2, trivial⟩
            · rwa [← h1, ← h2]
            · rw [← h3, ← h1, ← h2]
            · intro r1 c1 s1 hb1
              try rw [hb] at hb1
              injection hb1 with hb1
              simp only [Prod.mk.injEq] at hb1
              obtain ⟨e1, e2, e3⟩ := hb1
              rw [← e3, ← h3]
              omega
          · refine Or.inr ⟨p :: t1, t2, by simp [hsplit], hf, hs, ?_, ?_⟩
            · intro q hq hqfree
              rcases List.mem_cons.mp hq with hq | hq
              · have := hbest p.1 p.2 (block_score g v p.1 p.2 span) rfl
                rw [hq]
                omega
              · exact hlt q hq hqfree
            · intro r1 c1 s1 hb1
              try rw [hb] at hb1
              injection hb1 with hb1
              simp only [Prod.mk.injEq] at hb1
              obtain ⟨e1, e2, e3⟩ := hb1
              have := hbest p.1 p.2 (block_score g v p.1 p.2 span) rfl
              omega
        · rw [if_neg hgt] at h
          rcases ih _ r c s h with hkeep | ⟨t1, t2, hsplit, hf, hs, hlt, hbest⟩
          · exact Or.inl hkeep
          · refine Or.inr ⟨p :: t1, t2, by simp [hsplit], hf, hs, ?_, ?_⟩
            · intro q hq hqfree
              rcases List.mem_cons.mp hq with hq | hq
              · have := hbest r0 c0 s0 rfl
                rw [hq]
                omega
              · exact hlt q hq hqfree
            · intro r1 c1 s1 hb1
              try rw [hb] at hb1
              injection hb1 with hb1
              simp only [Prod.mk.injEq] at hb1
              obtain ⟨e1, e2, e3⟩ := hb1
              have := hbest r0 c0 s0 rfl
              omega
    · have hfree2 : is_block_free g p.1 p.2 span = false := by simpa using hfree
      rw [fbb_step_not_free hfree2] at h
      rcases ih _ r c s h with hkeep | ⟨t1, t2, hsplit, hf, hs, hlt, hbest⟩
      · exact Or.inl hkeep
      · refine Or.inr ⟨p :: t1, t2, by simp [hsplit], hf, hs, ?_, hbest⟩
        intro q hq hqfree
        rcases List.mem_cons.mp hq with hq | hq
        · rw [hq] at hqfree
          rw [hqfree] at hfree2
          exact Bool.noConfusion hfree2
        · exact hlt q hq hqfree

/-- Soundness of `find_best_block`: a returned block is free and carries its
own companion score. -/
theorem find_best_block_sound {g : GardenGrid} {v : Vegetable} {rows cols r c : Nat} {s : Int}
    (h : find_best_block g v rows cols = some (r, c, s)) :
    is_block_free g r c (cell_span v.spacing_cm) = true ∧
      s = block_score g v r c (cell_span v.spacing_cm) := by
  unfold find_best_block at h
  rcases fbb_decomp _ none r c s h with hkeep | ⟨l1, l2, _, hf, hs, _, _⟩
  · exact Option.noConfusion hkeep
  · exact ⟨hf, hs⟩

/-- Maximality of `find_best_block` over the scanned range. -/
theorem find_best_block_max {g : GardenGrid} {v : Vegetable} {rows cols r c : Nat} {s : Int}
    (hrows : rows = g.rows) (hcols : cols = g.cols)
    (h : find_best_block g v rows cols = some (r, c, s)) {r2 c2 : Nat}
    (hfree : is_block_free g r2 c2 (cell_span v.spacing_cm) = true) :
    block_score g v r2 c2 (cell_span v.spacing_cm) ≤ s := by
  unfold find_best_block at h
  exact (fbb_le _ none r c s h).2 (r2, c2) (is_block_free_mem hrows hcols hfree) hfree

/-- Tie-breaking of `find_best_block`: any free block strictly earlier in
row-major order scores strictly less than the returned block. -/
theorem find_best_block_earliest {g : GardenGrid} {v : Vegetable} {rows cols r c : Nat} {s : Int}
    (hrows : rows = g.rows) (hcols : cols = g.cols)
    (h : find_best_block g v rows cols = some (r, c, s)) {r2 c2 : Nat}
    (hfree : is_block_free g r2 c2 (cell_span v.spacing_cm) = true)
    (hbefore : rmBefore (r2, c2) (r, c)) :
    block_score g v r2 c2 (cell_span v.spacing_cm) < s := by
  unfold find_best_block at h
  rcases fbb_decomp _ none r c s h with hkeep | ⟨l1, l2, hsplit, hf, hs, hlt, _⟩
  · exact Option.noConfusion hkeep
  · have hmem : (r2, c2) ∈ block_positions rows cols (cell_span v.spacing_cm) :=
      is_block_free_mem hrows hcols hfree
    rw [hsplit] at hmem
    rcases List.mem_append.mp hmem with hmem | hmem
    · exact hlt (r2, c2) hmem hfree
    · exfalso
      have hpw := pairwise_block_positions rows cols (cell_span v.spacing_cm)
      rw [hsplit, List.pairwise_append] at hpw
      rcases List.mem_cons.mp hmem with hmem | hmem
      · have h12 : r2 = r ∧ c2 = c := by
          simp only [Prod.mk.injEq] at hmem
          exact hmem
        unfold rmBefore at hbefore
        omega
      · have hrel := (List.pairwise_cons.mp hpw.2.1).1 (r2, c2) hmem
        unfold rmBefore at hrel hbefore
        omega

/-- Completeness of `find_best_block`: `none` means no free block anywhere. -/
theorem find_best_block_none {g : GardenGrid} {v : Vegetable} {rows cols : Nat}
    (hrows : rows = g.rows) (hcols : cols = g.cols) :
    find_best_block g v rows cols = none ↔
      ∀ r2 c2, is_block_free g r2 c2 (cell_span v.spacing_cm) = false := by
  constructor
  · intro h r2 c2
    unfold find_best_block at h
    have := (fbb_foldl_eq_none _ none h).2
    by_cases hfree : is_block_free g r2 c2 (cell_span v.spacing_cm) = true
    · exact absurd hfree (by simp [this (r2, c2) (is_block_free_mem hrows hcols hfree)])
    · simpa using hfree
  · intro hall
    show (block_positions rows cols (cell_span v.spacing_cm)).foldl
        (fbb_step g v (cell_span v.spacing_cm)) none = none
    generalize block_positions rows cols (cell_span v.spacing_cm) = l
    induction l with
    | nil => rfl
    | cons p t ih =>
      rw [List.foldl_cons, fbb_step_not_free (hall p.1 p.2)]
      exact ih

/-! ## Helper lemmas: `freeCount`, well-formedness, `fill_block` -/

theorem length_filter_set_le (p : Cell → Bool) :
    ∀ (l : List Cell) (n : Nat) (a : Cell), p a = false →
    ((l.set n a).filter p).length ≤ (l.filter p).length := by
  intro l
  induction l with
  | nil => intro n a _; simp
  | cons x t ih =>
    intro n a ha
    cases n with
    | zero =>
      rw [List.set_cons_zero, List.filter_cons, List.filter_cons, ha]
      cases hx : p x <;> simp [hx]
    | succ n =>
      rw [List.set_cons_succ, List.filter_cons, List.filter_cons]
      have hih := ih n a ha
      cases hx : p x <;> simp [hx] <;> omega

theorem length_filter_set_lt (p : Cell → Bool) :
    ∀ (l : List Cell) (n : Nat) (a : Cell), n < l.length →
    p (l.getD n default) = true → p a = false →
    ((l.set n a).filter p).length < (l.filter p).length := by
  intro l
  induction l with
  | nil => intro n a hn; simp at hn
  | cons x t ih =>
    intro n a hn hp ha
    cases n with
    | zero =>
      rw [List.getD_cons_zero] at hp
      rw [List.set_cons_zero, List.filter_cons, List.filter_cons, ha, hp]
      simp
    | succ n =>
      rw [List.getD_cons_succ] at hp
      rw [List.set_cons_succ, List.filter_cons, List.filter_cons]
      have hih := ih n a (by simpa using hn) hp ha
      cases hx : p x <;> simp [hx] <;> omega

theorem sum_set_le : ∀ (l : List Nat) (n b : Nat), b ≤ l.getD n 0 →
    (l.set n b).sum ≤ l.sum := by
  intro l
  induction l with
  | nil => intro n b _; simp
  | cons x t ih =>
    intro n b hb
    cases n with
    | zero =>
      rw [List.getD_cons_zero] at hb
      rw [List.set_cons_zero, List.sum_cons, List.sum_cons]
      omega
    | succ n =>
      rw [List.getD_cons_succ] at hb
      rw [List.set_cons_succ, List.sum_cons, List.sum_cons]
      have := ih n b hb
      omega

theorem sum_set_lt : ∀ (l : List Nat) (n b : Nat), n < l.length → b < l.getD n 0 →
    (l.set n b).sum < l.sum := by
  intro l
  induction l with
  | nil => intro n b hn; simp at hn
  | cons x t ih =>
    intro n b hn hb
    cases n with
    | zero =>
      rw [List.getD_cons_zero] at hb
      rw [List.set_cons_zero, List.sum_cons, List.sum_cons]
      omega
    | succ n =>
      rw [List.getD_cons_succ] at hb
      rw [List.set_cons_succ, List.sum_cons, List.sum_cons]
      have := ih n b (by simpa using hn) hb
      omega

theorem length_filter_flatten (p : Cell → Bool) :
    ∀ (L : List (List Cell)),
    (L.flatten.filter p).length = (L.map (fun r => (r.filter p).length)).sum := by
  intro L
  induction L with
  | nil => simp
  | cons r t ih =>
    rw [List.flatten_cons, List.filter_append, List.length_append, List.map_cons,
      List.sum_cons, ih]

theorem getD_map_len (f : List Cell → Nat) (L : List (List Cell)) (r : Nat)
    (hr : r < L.length) : (L.map f).getD r 0 = f (L.getD r []) := by
  rw [List.getD_eq_getElem?_getD, List.getElem?_map, List.getD_eq_getElem?_getD,
    List.getElem?_eq_getElem hr]
  simp

theorem cellFree_written (old : Cell) (pv : PlacedVegetable) :
    cellFree { old with vegetable := some pv } = false := by
  simp [cellFree]

theorem freeCount_setVegCell_le (g : GardenGrid) (r c : Nat) (pv : PlacedVegetable) :
    freeCount (setVegCell g r c pv) ≤ freeCount g := by
  by_cases hr : r < g.cells.length
  · unfold freeCount setVegCell
    rw [length_filter_flatten, length_filter_flatten, List.map_set]
    refine sum_set_le _ r _ ?_
    rw [getD_map_len _ _ r hr]
    exact length_filter_set_le cellFree _ c _ (cellFree_written _ pv)
  · unfold freeCount setVegCell
    rw [List.set_eq_of_length_le (by omega)]

theorem freeCount_setVegCell_lt (g : GardenGrid) (r c : Nat) (pv : PlacedVegetable)
    (hr : r < g.cells.length) (hc : c < (g.cells.getD r []).length)
    (hfree : cellFree (getCell g r c) = true) :
    freeCount (setVegCell g r c pv) < freeCount g := by
  unfold freeCount setVegCell
  rw [length_filter_flatten, length_filter_flatten, List.map_set]
  refine sum_set_lt _ r _ (by simpa using hr) ?_
  rw [getD_map_len _ _ r hr]
  exact length_filter_set_lt cellFree _ c _ hc hfree (cellFree_written _ pv)

theorem WF_setVegCell {g : GardenGrid} (hwf : WF g) (r c : Nat) (pv : PlacedVegetable) :
    WF (setVegCell g r c pv) := by
  obtain ⟨h1, h2⟩ := hwf
  by_cases hr : r < g.cells.length
  · refine ⟨by simpa [setVegCell, List.length_set] using h1, ?_⟩
    intro row hrow
    simp only [setVegCell] at hrow
    rcases List.mem_or_eq_of_mem_set hrow with hmem | heq
    · exact h2 row hmem
    · subst heq
      rw [List.length_set]
      refine h2 _ ?_
      rw [List.getD_eq_getElem?_getD, List.getElem?_eq_getElem hr]
      simp only [Option.getD_some]
      exact List.getElem_mem hr
  · unfold setVegCell
    rw [List.set_eq_of_length_le (by omega)]
    exact ⟨h1, h2⟩

theorem WF_foldl_setVegCell {pv : PlacedVegetable} {row col : Nat} :
    ∀ (l : List (Nat × Nat)) {g : GardenGrid}, WF g →
    WF (l.foldl (fun g d => setVegCell g (row + d.1) (col + d.2) pv) g) := by
  intro l
  induction l with
  | nil => intro g hwf; exact hwf
  | cons d t ih =>
    intro g hwf
    rw [List.foldl_cons]
    exact ih (WF_setVegCell hwf _ _ pv)

theorem WF_fill_block {g : GardenGrid} (hwf : WF g) (v : Vegetable) (row col : Nat)
    (reason : String) : WF (fill_block g v row col reason) :=
  WF_foldl_setVegCell _ hwf

theorem WF_place_loop (pm : List (String × Nat)) (rows cols : Nat) :
    ∀ (queue : List Vegetable) (g : GardenGrid) (counts : String → Nat) (sc : Int),
    WF g → WF (place_loop pm rows cols queue g counts sc).1 := by
  intro queue
  induction queue with
  | nil => intro g counts sc hwf; exact hwf
  | cons v rest ih =>
    intro g counts sc hwf
    by_cases hcap : counts v.id ≥ (lookupAssoc pm v.id).getD 0
    · rw [show place_loop pm rows cols (v :: rest) g counts sc =
          place_loop pm rows cols rest g counts sc by
        simp only [place_loop]; rw [if_pos hcap]]
      exact ih g counts sc hwf
    · cases hfb : find_best_block g v rows cols with
      | none =>
        by_cases h1 : cell_span v.spacing_cm = 1
        · rw [show place_loop pm rows cols (v :: rest) g counts sc = (g, sc) by
            simp only [place_loop]; rw [if_neg hcap, hfb]; simp [h1]]
          exact hwf
        · rw [show place_loop pm rows cols (v :: rest) g counts sc =
              place_loop pm rows cols rest g counts sc by
            simp only [place_loop]; rw [if_neg hcap, hfb]; simp [h1]]
          exact ih g counts sc hwf
      | some b =>
        obtain ⟨r, c, s⟩ := b
        rw [show place_loop pm rows cols (v :: rest) g counts sc =
            place_loop pm rows cols rest
              (fill_block g v r c (build_reason v
                ((get_block_neighbors g r c (cell_span v.spacing_cm)).map
                  (fun n => n.name)) s))
              (fun id => if id == v.id then counts id + 1 else counts id) (sc + s) by
          simp only [place_loop]; rw [if_neg hcap, hfb]]
        exact ih _ _ _ (WF_fill_block hwf v r c _)

theorem freeCount_foldl_setVegCell_le {pv : PlacedVegetable} {row col : Nat} :
    ∀ (l : List (Nat × Nat)) (g : GardenGrid),
    freeCount (l.foldl (fun g d => setVegCell g (row + d.1) (col + d.2) pv) g) ≤ freeCount g := by
  intro l
  induction l with
  | nil => intro g; exact le_refl _
  | cons d t ih =>
    intro g
    rw [List.foldl_cons]
    exact (ih _).trans (freeCount_setVegCell_le g _ _ pv)

theorem block_coords_cons {span : Nat} (hspan : 0 < span) :
    ∃ t, ((List.range span).flatMap fun dr => (List.range span).map fun dc => (dr, dc)) =
      ((0 : Nat), (0 : Nat)) :: t := by
  obtain ⟨k, hk⟩ : ∃ k, span = k + 1 := ⟨span - 1, by omega⟩
  subst hk
  rw [List.range_succ_eq_map, List.flatMap_cons, List.map_cons, List.cons_append]
  exact ⟨_, rfl⟩

theorem is_block_free_parts {g : GardenGrid} {row col span : Nat}
    (hfree : is_block_free g row col span = true) :
    row + span ≤ g.rows ∧ col + span ≤ g.cols ∧
      ∀ dr dc, dr < span → dc < span → cellFree (getCell g (row + dr) (col + dc)) = true := by
  unfold is_block_free at hfree
  split at hfree
  · exact Bool.noConfusion hfree
  · rename_i hbound
    rw [Bool.or_eq_true, not_or] at hbound
    obtain ⟨h1, h2⟩ := hbound
    simp only [decide_eq_true_eq] at h1 h2
    refine ⟨by omega, by omega, ?_⟩
    intro dr dc hdr hdc
    rw [List.all_eq_true] at hfree
    have hrow := hfree dr (List.mem_range.mpr hdr)
    rw [List.all_eq_true] at hrow
    have h3 := hrow dc (List.mem_range.mpr hdc)
    simp only [Bool.not_eq_true', Bool.or_eq_false_iff] at h3
    obtain ⟨ha, hb⟩ := h3
    have hnone : (getCell g (row + dr) (col + dc)).vegetable = none := by
      cases hvg : (getCell g (row + dr) (col + dc)).vegetable with
      | none => rfl
      | some _ => rw [hvg] at ha; simp at ha
    simp [cellFree, hnone, hb]

theorem freeCount_fill_block_lt {g : GardenGrid} (hwf : WF g) {v : Vegetable} {row col : Nat}
    (reason : String) (hfree : is_block_free g row col (cell_span v.spacing_cm) = true) :
    freeCount (fill_block g v row col reason) < freeCount g := by
  have hspan : 0 < cell_span v.spacing_cm := by
    unfold cell_span
    omega
  obtain ⟨hr, hc, hcells⟩ := is_block_free_parts hfree
  have hfree00 : cellFree (getCell g row col) = true := by
    have := hcells 0 0 hspan hspan
    simpa using this
  have hrin : row < g.cells.length := by rw [hwf.1]; omega
  have hcin : col < (g.cells.getD row []).length := by
    have hmem : g.cells.getD row [] ∈ g.cells := by
      rw [List.getD_eq_getElem?_getD, List.getElem?_eq_getElem hrin]
      simp only [Option.getD_some]
      exact List.getElem_mem hrin
    rw [hwf.2 _ hmem]
    omega
  obtain ⟨t, ht⟩ := block_coords_cons hspan
  unfold fill_block
  simp only [ht, List.foldl_cons]
  calc freeCount _ ≤ freeCount (setVegCell g (row + 0) (col + 0) _) :=
        freeCount_foldl_setVegCell_le t _
    _ < freeCount g := by
        simpa using freeCount_setVegCell_lt g row col _ hrin hcin hfree00

/-! ## Helper lemmas: the phase-2 sweep and fill loop -/

theorem sweep_step_cases (rows cols : Nat) (st : GardenGrid × Int × Nat) (v : Vegetable)
    (hwf : WF st.1) :
    WF (sweep_step rows cols st v).1 ∧
      ((sweep_step rows cols st v = st ∧ (sweep_step rows cols st v).2.2 = st.2.2) ∨
        ((sweep_step rows cols st v).2.2 = st.2.2 + 1 ∧
          freeCount (sweep_step rows cols st v).1 < freeCount st.1)) := by
  unfold sweep_step
  cases hfb : find_best_block st.1 v rows cols with
  | none => exact ⟨hwf, Or.inl ⟨rfl, rfl⟩⟩
  | some b =>
    obtain ⟨r, c, s⟩ := b
    obtain ⟨hfree, _⟩ := find_best_block_sound hfb
    exact ⟨WF_fill_block hwf v r c _, Or.inr ⟨rfl, freeCount_fill_block_lt hwf _ hfree⟩⟩

theorem sweep_foldl_prop (rows cols : Nat) :
    ∀ (candidates : List Vegetable) (st : GardenGrid × Int × Nat), WF st.1 →
    WF (candidates.foldl (sweep_step rows cols) st).1 ∧
      freeCount (candidates.foldl (sweep_step rows cols) st).1 ≤ freeCount st.1 ∧
      st.2.2 ≤ (candidates.foldl (sweep_step rows cols) st).2.2 ∧
      ((candidates.foldl (sweep_step rows cols) st).2.2 > st.2.2 →
        freeCount (candidates.foldl (sweep_step rows cols) st).1 < freeCount st.1) := by
  intro candidates
  induction candidates with
  | nil =>
    intro st hwf
    rw [List.foldl_nil]
    exact ⟨hwf, le_refl _, le_refl _, by omega⟩
  | cons v t ih =>
    intro st hwf
    rw [List.foldl_cons]
    obtain ⟨hwf1, hcase⟩ := sweep_step_cases rows cols st v hwf
    obtain ⟨ihwf, ihle, ihcnt, ihlt⟩ := ih _ hwf1
    rcases hcase with ⟨heq, hcnt⟩ | ⟨hcnt, hlt⟩
    · rw [heq] at ihwf ihle ihcnt ihlt ⊢
      exact ⟨ihwf, ihle, ihcnt, ihlt⟩
    · refine ⟨ihwf, le_trans ihle (le_of_lt hlt), by omega, ?_⟩
      intro _
      exact lt_of_le_of_lt ihle hlt

theorem WF_sweep {g : GardenGrid} (hwf : WF g) (candidates : List Vegetable)
    (rows cols : Nat) : WF (sweep g candidates rows cols).1 :=
  (sweep_foldl_prop rows cols candidates (g, 0, 0) hwf).1

theorem sweep_commits_lt {g : GardenGrid} (hwf : WF g) (candidates : List Vegetable)
    (rows cols : Nat) (hpos : 0 < (sweep g candidates rows cols).2.2) :
    freeCount (sweep g candidates rows cols).1 < freeCount g :=
  (sweep_foldl_prop rows cols candidates (g, 0, 0) hwf).2.2.2 hpos

theorem fill_loop_isSome (candidates : List Vegetable) (rows cols : Nat) :
    ∀ (fuel : Nat) (g : GardenGrid) (acc : Int), WF g → freeCount g < fuel →
    ∃ res, fill_loop candidates rows cols fuel g acc = some res := by
  intro fuel
  induction fuel with
  | zero => intro g acc _ h; omega
  | succ fuel ih =>
    intro g acc hwf hfc
    simp only [fill_loop]
    by_cases hk : (sweep g candidates rows cols).2.2 = 0
    · rw [if_pos hk]
      exact ⟨_, rfl⟩
    · rw [if_neg hk]
      refine ih _ _ (WF_sweep hwf candidates rows cols) ?_
      have := sweep_commits_lt hwf candidates rows cols (by omega)
      omega

/-! ## Helper lemmas: allocation maps -/

theorem find?_append_of_none {α : Type} (pred : α → Bool) :
    ∀ (m l : List α), m.find? pred = none → (m ++ l).find? pred = l.find? pred := by
  intro m l
  induction m with
  | nil => intro _; rfl
  | cons a t ih =>
    intro h
    cases hpa : pred a with
    | true =>
      rw [List.find?_cons_of_pos _ hpa] at h
      exact Option.noConfusion h
    | false =>
      rw [List.find?_cons_of_neg _ (by simp [hpa])] at h
      rw [List.cons_append, List.find?_cons_of_neg _ (by simp [hpa])]
      exact ih h

theorem find?_append_of_some {α : Type} (pred : α → Bool) :
    ∀ (m l : List α) (x : α), m.find? pred = some x → (m ++ l).find? pred = some x := by
  intro m l
  induction m with
  | nil => intro x h; exact Option.noConfusion h
  | cons a t ih =>
    intro x h
    cases hpa : pred a with
    | true =>
      rw [List.find?_cons_of_pos _ hpa] at h
      rw [List.cons_append, List.find?_cons_of_pos _ hpa]
      exact h
    | false =>
      rw [List.find?_cons_of_neg _ (by simp [hpa])] at h
      rw [List.cons_append, List.find?_cons_of_neg _ (by simp [hpa])]
      exact ih x h

theorem lookupAssoc_map_replace (k : String) (val : Nat) :
    ∀ (m : List (String × Nat)),
    lookupAssoc (m.map (fun p => if p.1 == k then (k, val) else p)) k =
      if (m.find? (fun p => p.1 == k)).isSome then some val else none := by
  intro m
  induction m with
  | nil => simp [lookupAssoc]
  | cons p t ih =>
    by_cases hp : (p.1 == k) = true
    · rw [List.map_cons, if_pos hp]
      unfold lookupAssoc
      rw [@List.find?_cons_of_pos _ (fun q => q.1 == k) (k, val) _ (by simp),
        @List.find?_cons_of_pos _ (fun q => q.1 == k) p t hp]
      simp
    · rw [List.map_cons, if_neg hp]
      unfold lookupAssoc at ih ⊢
      rw [@List.find?_cons_of_neg _ (fun q => q.1 == k) p _ (by simpa using hp),
        @List.find?_cons_of_neg _ (fun q => q.1 == k) p t (by simpa using hp)]
      exact ih

theorem find?_map_replace_ne (k k2 : String) (val : Nat) (h : ¬ k2 = k) :
    ∀ (m : List (String × Nat)),
    (m.map (fun p => if p.1 == k then (k, val) else p)).find? (fun p => p.1 == k2) =
      m.find? (fun p => p.1 == k2) := by
  intro m
  induction m with
  | nil => rfl
  | cons p t ih =>
    by_cases hp2 : (p.1 == k2) = true
    · have hpk : ¬ (p.1 == k) = true := by
        rw [beq_iff_eq] at hp2 ⊢
        rw [hp2]
        exact fun he => h he
      rw [List.map_cons, if_neg hpk,
        @List.find?_cons_of_pos _ (fun q => q.1 == k2) p _ hp2,
        @List.find?_cons_of_pos _ (fun q => q.1 == k2) p t hp2]
    · by_cases hpk : (p.1 == k) = true
      · rw [List.map_cons, if_pos hpk]
        rw [@List.find?_cons_of_neg _ (fun q => q.1 == k2) (k, val) _ (by
            simp only [beq_iff_eq]
            exact fun he => h he.symm),
          @List.find?_cons_of_neg _ (fun q => q.1 == k2) p t (by simpa using hp2)]
        exact ih
      · rw [List.map_cons, if_neg hpk]
        rw [@List.find?_cons_of_neg _ (fun q => q.1 == k2) p _ (by simpa using hp2),
          @List.find?_cons_of_neg _ (fun q => q.1 == k2) p t (by simpa using hp2)]
        exact ih

theorem lookupAssoc_insertAssoc_self (m : List (String × Nat)) (k : String) (val : Nat) :
    lookupAssoc (insertAssoc m k val) k = some val := by
  unfold insertAssoc
  by_cases hm : (m.find? (fun p => p.1 == k)).isSome
  · rw [if_pos hm, lookupAssoc_map_replace, if_pos hm]
  · rw [if_neg hm]
    have hnone : m.find? (fun p => p.1 == k) = none := by
      cases hf : m.find? (fun p => p.1 == k) with
      | none => rfl
      | some x => rw [hf] at hm; simp at hm
    unfold lookupAssoc
    rw [find?_append_of_none _ _ _ hnone,
      @List.find?_cons_of_pos _ (fun q => q.1 == k) (k, val) [] (by simp)]
    simp

theorem lookupAssoc_insertAssoc_ne (m : List (String × Nat)) (k k2 : String) (val : Nat)
    (h : ¬ k2 = k) : lookupAssoc (insertAssoc m k val) k2 = lookupAssoc m k2 := by
  unfold insertAssoc
  by_cases hm : (m.find? (fun p => p.1 == k)).isSome
  · rw [if_pos hm]
    unfold lookupAssoc
    rw [find?_map_replace_ne k k2 val h]
  · rw [if_neg hm]
    unfold lookupAssoc
    cases hf : m.find? (fun p => p.1 == k2) with
    | some x => rw [find?_append_of_some _ _ _ _ hf]
    | none =>
      rw [find?_append_of_none _ _ _ hf,
        @List.find?_cons_of_neg _ (fun q => q.1 == k2) (k, val) [] (by
          simp only [beq_iff_eq]
          exact fun he => h he.symm)]
      simp

theorem alloc_step_no_qty (candidates : List Vegetable) (st : List (String × Nat) × Nat)
    (pref : PreferenceEntry) (h : pref.quantity = none) :
    alloc_step candidates st pref = st := by
  simp [alloc_step, h]

theorem alloc_step_no_candidate (candidates : List Vegetable)
    (st : List (String × Nat) × Nat) (pref : PreferenceEntry) (qty : Nat)
    (hq : pref.quantity = some qty)
    (hf : candidates.find? (fun v => v.id == pref.id) = none) :
    alloc_step candidates st pref = st := by
  simp [alloc_step, hq, hf]

theorem alloc_step_reserve (candidates : List Vegetable) (m : List (String × Nat))
    (rem : Nat) (pref : PreferenceEntry) (qty : Nat) (v : Vegetable)
    (hq : pref.quantity = some qty)
    (hf : candidates.find? (fun w => w.id == pref.id) = some v) :
    alloc_step candidates (m, rem) pref =
      (insertAssoc m pref.id (min (qty * (cell_span v.spacing_cm) ^ 2) rem),
       rem - min (qty * (cell_span v.spacing_cm) ^ 2) rem) := by
  simp [alloc_step, hq, hf]

theorem alloc_foldl_lookup_none (candidates : List Vegetable) (id : String) :
    ∀ (prefs : List PreferenceEntry) (m : List (String × Nat)) (rem : Nat),
    (∀ p ∈ prefs, p.id = id → p.quantity = none) →
    lookupAssoc m id = none →
    lookupAssoc (prefs.foldl (alloc_step candidates) (m, rem)).1 id = none := by
  intro prefs
  induction prefs with
  | nil => intro m rem _ hm; exact hm
  | cons p t ih =>
    intro m rem hall hm
    rw [List.foldl_cons]
    cases hq : p.quantity with
    | none =>
      rw [alloc_step_no_qty candidates (m, rem) p hq]
      exact ih m rem (fun q hq2 => hall q (List.mem_cons_of_mem p hq2)) hm
    | some qty =>
      have hpid : ¬ p.id = id := by
        intro he
        have h2 := hall p (List.mem_cons_self p t) he
        rw [hq] at h2
        exact Option.noConfusion h2
      cases hf : candidates.find? (fun w => w.id == p.id) with
      | none =>
        rw [alloc_step_no_candidate candidates (m, rem) p qty hq hf]
        exact ih m rem (fun q hq2 => hall q (List.mem_cons_of_mem p hq2)) hm
      | some v =>
        rw [alloc_step_reserve candidates m rem p qty v hq hf]
        refine ih _ _ (fun q hq2 => hall q (List.mem_cons_of_mem p hq2)) ?_
        rw [lookupAssoc_insertAssoc_ne m p.id id _ (fun he => hpid he.symm)]
        exact hm

theorem lookup_foldl_insert_absent (f : Vegetable → Nat) (id : String) :
    ∀ (l : List Vegetable) (m0 : List (String × Nat)),
    (∀ w ∈ l, ¬ w.id = id) →
    lookupAssoc (l.foldl (fun m w => insertAssoc m w.id (f w)) m0) id =
      lookupAssoc m0 id := by
  intro l
  induction l with
  | nil => intro m0 _; rfl
  | cons a t ih =>
    intro m0 hall
    rw [List.foldl_cons, ih _ (fun w hw => hall w (List.mem_cons_of_mem a hw)),
      lookupAssoc_insertAssoc_ne m0 a.id id (f a)
        (fun he => hall a (List.mem_cons_self a t) he.symm)]

theorem lookup_foldl_insert_mem (f : Vegetable → Nat) :
    ∀ (l : List Vegetable) (m0 : List (String × Nat)) (v : Vegetable),
    v ∈ l → (l.map (fun w => w.id)).Nodup →
    lookupAssoc (l.foldl (fun m w => insertAssoc m w.id (f w)) m0) v.id =
      some (f v) := by
  intro l
  induction l with
  | nil => intro m0 v hv _; exact absurd hv (List.not_mem_nil v)
  | cons a t ih =>
    intro m0 v hv hnd
    rw [List.map_cons, List.nodup_cons] at hnd
    rw [List.foldl_cons]
    rcases List.mem_cons.mp hv with he | hmem
    · subst he
      have habs : ∀ w ∈ t, ¬ w.id = v.id := by
        intro w hw hwe
        exact hnd.1 (hwe ▸ List.mem_map_of_mem (fun q => q.id) hw)
      rw [lookup_foldl_insert_absent f v.id t (insertAssoc m0 v.id (f v)) habs]
      exact lookupAssoc_insertAssoc_self m0 v.id (f v)
    · exact ih _ v hmem hnd.2

theorem nodup_ids_filter (pred : Vegetable → Bool) (l : List Vegetable)
    (h : (l.map (fun w => w.id)).Nodup) :
    ((l.filter pred).map (fun w => w.id)).Nodup :=
  List.Nodup.sublist (List.Sublist.map _ (List.filter_sublist l)) h

theorem build_placement_queue_map (candidates : List Vegetable)
    (preferences : List PreferenceEntry) (free_cells : Nat) :
    (build_placement_queue candidates preferences free_cells).2 =
      (candidates.filter (fun v =>
        (lookupAssoc (compute_explicit_allocation candidates preferences free_cells)
          v.id).isSome)).foldl
        (fun m v => insertAssoc m v.id
          (placements_of_cells
            ((lookupAssoc (compute_explicit_allocation candidates preferences free_cells)
              v.id).getD 0)
            ((cell_span v.spacing_cm) ^ 2))) [] := rfl

theorem build_placement_queue_fst (candidates : List Vegetable)
    (preferences : List PreferenceEntry) (free_cells : Nat) :
    (build_placement_queue candidates preferences free_cells).1 =
      (preferences.filterMap
        (fun p => candidates.find? (fun v => v.id == p.id))).flatMap
        (fun v => List.replicate
          ((lookupAssoc (build_placement_queue candidates preferences free_cells).2
            v.id).getD 0) v) := rfl

/-! ## Helper lemmas: the candidate ranker -/

theorem bool_if_chain (b x : Bool) : (if (!b) = true then false else x) = (b && x) := by
  cases b <;> simp

theorem matches_request_eq_spec (request : PlanRequest) (v : Vegetable) :
    matches_request request v = spec_matches request v := by
  unfold matches_request spec_matches
  cases hsun : request.sun <;> cases hsoil : request.soil <;> cases hreg : request.region <;>
    simp only [bool_if_chain] <;>
    cases request.level == some Level.Beginner <;>
      cases v.beginner_friendly <;>
        simp [Bool.and_assoc]

theorem filter_cmp_decide (prefs : List PreferenceEntry) (a b : Vegetable) :
    decide (filter_cmp prefs a b ≠ Ordering.gt) = spec_le prefs a b := by
  unfold filter_cmp spec_le spec_key
  cases ha : prefs.findIdx? (fun p => p.id == a.id) <;>
    cases hb : prefs.findIdx? (fun p => p.id == b.id) <;>
    simp [Nat.compare_eq_gt, Nat.not_lt]

theorem spec_le_trans (prefs : List PreferenceEntry) :
    ∀ a b c, spec_le prefs a b = true → spec_le prefs b c = true →
    spec_le prefs a c = true := by
  intro a b c hab hbc
  unfold spec_le at hab hbc ⊢
  simp only [Bool.or_eq_true, Bool.and_eq_true, decide_eq_true_eq, beq_iff_eq] at hab hbc ⊢
  omega

theorem spec_le_total (prefs : List PreferenceEntry) :
    ∀ a b, (spec_le prefs a b || spec_le prefs b a) = true := by
  intro a b
  unfold spec_le
  simp only [Bool.or_eq_true, Bool.and_eq_true, decide_eq_true_eq, beq_iff_eq]
  omega

/-- Claim C7 — the candidate ranker coincides with the spec-modelled
reference (filter by the requested constraints, stable sort by
preference-position-then-popularity-rank); its output is a permutation of the
filtered catalogue, contains exactly the matching entries, is sorted by the
key, and keeps the original catalogue order of key-ties (stability). -/
theorem claim_C7 (db : List Vegetable) (request : PlanRequest) :
    filter_vegetables db request = ranker_spec db request ∧
    (filter_vegetables db request).Perm (db.filter (matches_request request)) ∧
    (∀ v, v ∈ filter_vegetables db request ↔
      v ∈ db ∧ matches_request request v = true) ∧
    List.Pairwise (fun a b => spec_le (request.preferences.getD []) a b = true)
      (filter_vegetables db request) ∧
    (∀ a b, spec_le (request.preferences.getD []) a b = true →
      [a, b].Sublist (db.filter (matches_request request)) →
      [a, b].Sublist (filter_vegetables db request)) := by
  have hf : db.filter (matches_request request) = db.filter (spec_matches request) :=
    List.filter_congr (fun x _ => matches_request_eq_spec request x)
  have hle : (fun a b => decide (filter_cmp (request.preferences.getD []) a b ≠ Ordering.gt)) =
      spec_le (request.preferences.getD []) :=
    funext fun a => funext fun b => filter_cmp_decide _ a b
  have heq : filter_vegetables db request = ranker_spec db request := by
    show (db.filter (matches_request request)).mergeSort
        (fun a b => decide (filter_cmp (request.preferences.getD []) a b ≠ Ordering.gt)) =
      (db.filter (spec_matches request)).mergeSort (spec_le (request.preferences.getD []))
    rw [hf, hle]
  have hperm : (filter_vegetables db request).Perm (db.filter (matches_request request)) := by
    unfold filter_vegetables
    exact List.mergeSort_perm _ _
  refine ⟨heq, hperm, ?_, ?_, ?_⟩
  · intro v
    rw [hperm.mem_iff, List.mem_filter]
  · rw [heq]
    unfold ranker_spec
    exact List.sorted_mergeSort (spec_le_trans _) (spec_le_total _) _
  · intro a b hab hsub
    rw [heq]
    unfold ranker_spec
    rw [hf] at hsub
    exact List.sublist_mergeSort (spec_le_trans _) (spec_le_total _)
      (List.pairwise_pair.mpr hab) hsub

/-- Claim C9 — the companion score is the sum of per-neighbour deltas
(+2 for beneficial, −3 for detrimental), additive over list concatenation,
invariant under permutation of the neighbour list, and a neighbour present in
both lists contributes both deltas, i.e. a net −1. -/
theorem claim_C9 (v : Vegetable) (l l2 lp : List String) (hperm : l.Perm lp) :
    companion_score v l = (l.map (companion_delta v)).sum ∧
    companion_score v (l ++ l2) = companion_score v l + companion_score v l2 ∧
    companion_score v l = companion_score v lp ∧
    (∀ n, v.good_companions.any (fun c => c == n) = true →
      v.bad_companions.any (fun c => c == n) = true → companion_delta v n = -1) := by
  refine ⟨companion_score_eq_sum v l, ?_, ?_, ?_⟩
  · rw [companion_score_eq_sum, companion_score_eq_sum, companion_score_eq_sum,
      List.map_append, List.sum_append]
  · rw [companion_score_eq_sum, companion_score_eq_sum]
    exact List.Perm.sum_eq (hperm.map (companion_delta v))
  · intro n hg hb
    simp [companion_delta, hg, hb, GOOD_COMPANION_SCORE, BAD_COMPANION_SCORE]

/-- Witness for C9 at a concrete variety and neighbour lists. -/
theorem claim_C9_witness :
    companion_score dupVeg ["basil", "fennel"] =
      ((["basil", "fennel"]).map (companion_delta dupVeg)).sum ∧
    companion_score dupVeg (["basil", "fennel"] ++ ["basil"]) =
      companion_score dupVeg ["basil", "fennel"] + companion_score dupVeg ["basil"] ∧
    companion_score dupVeg ["basil", "fennel"] = companion_score dupVeg ["fennel", "basil"] ∧
    (∀ n, dupVeg.good_companions.any (fun c => c == n) = true →
      dupVeg.bad_companions.any (fun c => c == n) = true → companion_delta dupVeg n = -1) :=
  claim_C9 dupVeg ["basil", "fennel"] ["basil"] ["fennel", "basil"] (by decide)

/-- Claim C10 — when the pre-occupied cell count reaches the number of
non-blocked cells, `plan_garden` short-circuits both phases and returns
exactly the initialised grid with score 0 plus the dedicated warning; and on
the fully blocked 3×3 grid any non-empty candidate list yields an all-blocked
response grid with zero placements and a non-empty warning list. -/
theorem claim_C10 (db candidates : List Vegetable) (request : PlanRequest)
    (rows cols : Nat) (grid : GardenGrid) (ws : List String)
    (hval : validate_layout request.layout = .ok (rows, cols))
    (hinit : initialize_grid db rows cols request.layout = some (grid, ws))
    (hocc : (count_grid_occupancy grid).1 ≥ rows * cols - (count_grid_occupancy grid).2) :
    plan_garden db candidates request =
      some (.ok (build_response grid rows cols 0 (ws ++ [fully_occupied_warning]))) ∧
    ∀ cands2 : List Vegetable, cands2 ≠ [] →
      ∃ resp, plan_garden [] cands2 req3x3Blocked = some (.ok resp) ∧
        resp.score = 0 ∧ resp.warnings ≠ [] ∧
        ∀ row ∈ resp.grid, ∀ cell ∈ row, cell = PlannedCell.Blocked := by
  constructor
  · simp only [plan_garden, hval, hinit]
    rw [if_pos hocc]
  · intro cands2 hne
    refine ⟨build_response blockedGrid3 3 3 0 [fully_occupied_warning], rfl, rfl,
      by decide, by decide⟩

/-- Witness for C10 at the fully blocked 3×3 request. -/
theorem claim_C10_witness :
    plan_garden [] [vegA] req3x3Blocked =
      some (.ok (build_response blockedGrid3 3 3 0 ([] ++ [fully_occupied_warning]))) ∧
    (∀ cands2 : List Vegetable, cands2 ≠ [] →
      ∃ resp, plan_garden [] cands2 req3x3Blocked = some (.ok resp) ∧
        resp.score = 0 ∧ resp.warnings ≠ [] ∧
        ∀ row ∈ resp.grid, ∀ cell ∈ row, cell = PlannedCell.Blocked) :=
  claim_C10 [] [vegA] req3x3Blocked 3 3 blockedGrid3 []
    rfl (by decide) (by decide)

/-- Claim C2 counterexample — the appended warning does not name the cell's
coordinates: two layouts whose sole unresolvable pre-planted cell sits at
different coordinates ((0,1) vs (1,0)) produce identical warning lists, the
cell is skipped (the grid stays fresh), and the warning text names only the
identifier. -/
theorem claim_C2_counterexample :
    initialize_grid [] 1 2 [[.Free, .Planted "zz"]] =
      some (GardenGrid.new 1 2, [not_found_warning "zz"]) ∧
    initialize_grid [] 2 1 [[.Free], [.Planted "zz"]] =
      some (GardenGrid.new 2 1, [not_found_warning "zz"]) ∧
    not_found_warning "zz" = "Vegetable 'zz' not found in the database, skipped." :=
  ⟨by decide, by decide, rfl⟩

/-- Claim C2 (amended) — a pre-planted cell whose identifier does not resolve
in the catalogue is skipped (the cell keeps no placement and stays free) and a
warning naming the identifier (but not the coordinates) is appended. -/
theorem claim_C2 (db : List Vegetable) (rows cols rT cT : Nat) (id : String)
    (layout : List (List LayoutCell)) (g : GardenGrid) (ws : List String)
    (hcell : (layout.getD rT []).getD cT .Free = .Planted id)
    (hlook : get_vegetable_by_id db id = none)
    (hrun : initialize_grid db rows cols layout = some (g, ws)) :
    not_found_warning id ∈ ws ∧ getCell g rT cT = ⟨none, false⟩ := by
  have hrT : rT < layout.length := by
    by_contra hn
    push_neg at hn
    rw [List.getD_eq_default _ _ hn, List.getD_eq_default _ _ (Nat.zero_le _)] at hcell
    exact LayoutCell.noConfusion hcell
  have hcT : cT < (layout.getD rT []).length := by
    by_contra hn
    push_neg at hn
    rw [List.getD_eq_default _ _ hn] at hcell
    exact LayoutCell.noConfusion hcell
  refine ⟨init_rows_warn hlook layout 0 hrun rT cT hrT hcT hcell, ?_⟩
  have hpres := (init_rows_spec layout 0 hrun).2 rT cT ?_
  · rw [hpres, getCell_new]
  · intro j hj hrj i hi hic
    have hj2 : j = rT := by omega
    rw [hj2, hic, hcell]
    exact hlook

/-- Witness for C2 at the concrete 1×2 layout with unresolvable id `"zz"`. -/
theorem claim_C2_witness :
    not_found_warning "zz" ∈ [not_found_warning "zz"] ∧
      getCell (GardenGrid.new 1 2) 0 1 = ⟨none, false⟩ :=
  claim_C2 [] 1 2 0 1 "zz" [[.Free, .Planted "zz"]] (GardenGrid.new 1 2)
    [not_found_warning "zz"] (by decide) (by decide) (by decide)

/-- Claim C5 — phase-1 block selection and dispatch: a returned block is free,
carries its own companion score, no free block scores higher, every free block
strictly earlier in row-major order scores strictly lower (first-found wins
ties, strict improvement required); `none` holds exactly when no free block
exists; and for a queue entry still below its cap, `place_candidates` commits
the found block, stops the whole phase when span = 1 and no block exists, and
skips just that entry when span > 1. -/
theorem claim_C5 (g : GardenGrid) (v : Vegetable) (rows cols : Nat)
    (hrows : rows = g.rows) (hcols : cols = g.cols) :
    (∀ r c s, find_best_block g v rows cols = some (r, c, s) →
      is_block_free g r c (cell_span v.spacing_cm) = true ∧
      s = block_score g v r c (cell_span v.spacing_cm) ∧
      (∀ r2 c2, is_block_free g r2 c2 (cell_span v.spacing_cm) = true →
        block_score g v r2 c2 (cell_span v.spacing_cm) ≤ s) ∧
      (∀ r2 c2, is_block_free g r2 c2 (cell_span v.spacing_cm) = true →
        rmBefore (r2, c2) (r, c) → block_score g v r2 c2 (cell_span v.spacing_cm) < s)) ∧
    (find_best_block g v rows cols = none ↔
      ∀ r2 c2, is_block_free g r2 c2 (cell_span v.spacing_cm) = false) ∧
    (∀ (pm : List (String × Nat)) (rest : List Vegetable) (counts : String → Nat) (sc : Int),
      counts v.id < (lookupAssoc pm v.id).getD 0 →
      ((find_best_block g v rows cols = none →
        (cell_span v.spacing_cm = 1 →
          place_loop pm rows cols (v :: rest) g counts sc = (g, sc)) ∧
        (cell_span v.spacing_cm ≠ 1 →
          place_loop pm rows cols (v :: rest) g counts sc =
            place_loop pm rows cols rest g counts sc)) ∧
      ∀ r c s, find_best_block g v rows cols = some (r, c, s) →
        place_loop pm rows cols (v :: rest) g counts sc =
          place_loop pm rows cols rest
            (fill_block g v r c (build_reason v
              ((get_block_neighbors g r c (cell_span v.spacing_cm)).map (fun n => n.name)) s))
            (fun id => if id == v.id then counts id + 1 else counts id) (sc + s))) := by
  refine ⟨?_, find_best_block_none hrows hcols, ?_⟩
  · intro r c s hsome
    obtain ⟨hfree, hscore⟩ := find_best_block_sound hsome
    exact ⟨hfree, hscore, fun r2 c2 hf => find_best_block_max hrows hcols hsome hf,
      fun r2 c2 hf hbef => find_best_block_earliest hrows hcols hsome hf hbef⟩
  · intro pm rest counts sc hcap
    have hcap2 : ¬ counts v.id ≥ (lookupAssoc pm v.id).getD 0 := by omega
    refine ⟨?_, ?_⟩
    · intro hnone
      constructor
      · intro h1
        simp only [place_loop]
        rw [if_neg hcap2, hnone]
        simp [h1]
      · intro h1
        simp only [place_loop]
        rw [if_neg hcap2, hnone]
        simp [h1]
    · intro r c s hsome
      simp only [place_loop]
      rw [if_neg hcap2, hsome]

/-- Witness for C5: on the 2×4 grid `dupGrid` the scan for span-1 `vegA`
returns the first free cell (0, 2) with score 0, maximal and strictly above
every earlier free cell. -/
theorem claim_C5_witness :
    is_block_free dupGrid 0 2 (cell_span vegA.spacing_cm) = true ∧
    (0 : Int) = block_score dupGrid vegA 0 2 (cell_span vegA.spacing_cm) ∧
    (∀ r2 c2, is_block_free dupGrid r2 c2 (cell_span vegA.spacing_cm) = true →
      block_score dupGrid vegA r2 c2 (cell_span vegA.spacing_cm) ≤ 0) ∧
    (∀ r2 c2, is_block_free dupGrid r2 c2 (cell_span vegA.spacing_cm) = true →
      rmBefore (r2, c2) (0, 2) → block_score dupGrid vegA r2 c2 (cell_span vegA.spacing_cm) < 0) :=
  (claim_C5 dupGrid vegA 2 4 rfl rfl).1 0 2 0 (by decide)

theorem gbn_check_sub (g : GardenGrid) (st : List (Nat × Nat) × List PlacedVegetable)
    (rc : Int × Int) :
    (gbn_check g st rc).2 = st.2 ∨
      ∃ v, (gbn_check g st rc).2 = st.2 ++ [v] ∧
        (getCell g rc.1.toNat rc.2.toNat).vegetable = some v := by
  obtain ⟨rr, cc⟩ := rc
  unfold gbn_check
  dsimp only
  split_ifs with h1 h2
  · exact Or.inl rfl
  · exact Or.inl rfl
  · cases hveg : (getCell g rr.toNat cc.toNat).vegetable with
    | some v =>
      refine Or.inr ⟨v, ?_, rfl⟩
      simp
    | none =>
      refine Or.inl ?_
      simp

theorem gbn_foldl_mem {g : GardenGrid} :
    ∀ (coords : List (Int × Int)) (st : List (Nat × Nat) × List PlacedVegetable),
    (∀ x ∈ st.2, ∃ r2 c2, (getCell g r2 c2).vegetable = some x) →
    ∀ x ∈ (coords.foldl (gbn_check g) st).2, ∃ r2 c2, (getCell g r2 c2).vegetable = some x := by
  intro coords
  induction coords with
  | nil => intro st hst; exact hst
  | cons rc t ih =>
    intro st hst
    rw [List.foldl_cons]
    refine ih _ ?_
    intro x hx
    rcases gbn_check_sub g st rc with hcase | ⟨v, hcase, hveg⟩
    · rw [hcase] at hx
      exact hst x hx
    · rw [hcase] at hx
      rcases List.mem_append.mp hx with hmem | hmem
      · exact hst x hmem
      · rw [List.mem_singleton] at hmem
        subst hmem
        exact ⟨_, _, hveg⟩

/-- Every placement returned by `get_block_neighbors` is stored in some cell
of the grid. -/
theorem get_block_neighbors_mem {g : GardenGrid} {row col span : Nat} {x : PlacedVegetable}
    (hx : x ∈ get_block_neighbors g row col span) :
    ∃ r2 c2, (getCell g r2 c2).vegetable = some x := by
  unfold get_block_neighbors at hx
  exact gbn_foldl_mem _ ([], []) (by simp) x hx

/-- The cell read by `getCell` is either the default free cell or a member of
the cell matrix. -/
theorem getCell_mem_or_default (g : GardenGrid) (r c : Nat) :
    getCell g r c = default ∨ ∃ row ∈ g.cells, getCell g r c ∈ row := by
  unfold getCell
  by_cases hr : r < g.cells.length
  · by_cases hc : c < (g.cells.getD r []).length
    · refine Or.inr ⟨g.cells.getD r [], ?_, ?_⟩
      · rw [List.getD_eq_getElem?_getD, List.getElem?_eq_getElem hr]
        simp only [Option.getD_some]
        exact List.getElem_mem hr
      · rw [List.getD_eq_getElem?_getD (g.cells.getD r []), List.getElem?_eq_getElem hc]
        simp only [Option.getD_some]
        exact List.getElem_mem hc
    · rw [List.getD_eq_default (g.cells.getD r []) default (by omega)]
      exact Or.inl rfl
  · rw [List.getD_eq_default g.cells [] (by omega)]
    rw [List.getD_eq_default [] default (by simp)]
    exact Or.inl rfl

theorem sum_map_delta_const (B : Vegetable) (val : Int) :
    ∀ (l : List String), (∀ x ∈ l, companion_delta B x = val) →
    (l.map (companion_delta B)).sum = val * l.length := by
  intro l
  induction l with
  | nil => intro _; simp
  | cons x t ih =>
    intro h
    rw [List.map_cons, List.sum_cons, ih (fun y hy => h y (List.mem_cons_of_mem x hy)),
      h x (List.mem_cons_self x t)]
    simp only [List.length_cons]
    push_cast
    ring

theorem plan_garden_tail (db candidates : List Vegetable) (request : PlanRequest)
    (rows cols : Nat) (g2 : GardenGrid) (ws2 : List String)
    (hval : validate_layout request.layout = .ok (rows, cols))
    (hinit : initialize_grid db rows cols request.layout = some (g2, ws2))
    (hwf : WF g2) :
    ∃ resp, plan_garden db candidates request = some (.ok resp) := by
  simp only [plan_garden, hval, hinit]
  by_cases hocc : (count_grid_occupancy g2).1 ≥ rows * cols - (count_grid_occupancy g2).2
  · rw [if_pos hocc]
    exact ⟨_, rfl⟩
  · rw [if_neg hocc]
    set Q := build_placement_queue candidates (request.preferences.getD [])
      (rows * cols - (count_grid_occupancy g2).2 - (count_grid_occupancy g2).1) with hQ
    set grid1 := (place_candidates g2 Q.1 Q.2 rows cols).1 with hg1
    have hwf1 : WF grid1 := WF_place_loop Q.2 rows cols Q.1 g2 (placedSeed g2) 0 hwf
    obtain ⟨res, hres⟩ := fill_loop_isSome candidates rows cols (freeCount grid1 + 1)
      grid1 0 hwf1 (by omega)
    obtain ⟨g3, s3⟩ := res
    rw [show fill_remaining_cells grid1 candidates rows cols = some (g3, s3) from hres]
    exact ⟨_, rfl⟩

/-- Claim C4 counterexample — a structurally valid layout (non-empty, first
row non-empty) whose second row is longer than the first makes
`initialize_grid` index out of bounds, so `plan_garden` panics (modelled as
`none`) instead of returning a result. -/
theorem claim_C4_counterexample :
    validate_layout raggedReq.layout = .ok (2, 1) ∧
    plan_garden [] [vegA] raggedReq = none :=
  ⟨rfl, rfl⟩

/-- Claim C4 (amended) — for every structurally valid input whose non-first
rows are no longer than the first row, `plan_garden` returns a result (no
out-of-bounds indexing, phase 2 terminates). -/
theorem claim_C4 (db candidates : List Vegetable) (request : PlanRequest)
    (hne : request.layout ≠ [])
    (hfst : (request.layout.headD []).length ≠ 0)
    (hrag : ∀ row ∈ request.layout, row.length ≤ (request.layout.headD []).length) :
    ∃ resp, plan_garden db candidates request = some (.ok resp) := by
  have hval : validate_layout request.layout =
      .ok (request.layout.length, (request.layout.headD []).length) := by
    simp only [validate_layout]
    rw [if_neg (by simpa [List.isEmpty_iff] using hne), if_neg hfst]
  obtain ⟨g2, ws2, hinit, hwf⟩ := @initialize_grid_some db request.layout hrag
  exact plan_garden_tail db candidates request _ _ g2 ws2 hval hinit hwf

/-- Witness for C4 on the free 3×3 request. -/
theorem claim_C4_witness :
    ∃ resp, plan_garden [] [vegA] req3x3 = some (.ok resp) :=
  claim_C4 [] [vegA] req3x3 (by decide) (by decide) (by decide)

/-- Claim C3 counterexample — `vegA` and `vegB` are mutually detrimental and
supplied alone as the candidate list on a free 3×3 grid (which offers
non-adjacent alternatives), yet the fill phase packs the whole grid and the
final planned grid contains an axis-adjacent `vegA`/`vegB` pair. -/
theorem claim_C3_counterexample :
    vegB.id ∈ vegA.bad_companions ∧ vegA.id ∈ vegB.bad_companions ∧
    adjCeGrid ≠ [] ∧
    hasAdjacentPair adjCeGrid vegA.id vegB.id = true :=
  ⟨by decide, by decide, by decide, by decide⟩

/-- Claim C3 (amended) — a single commit avoids the detrimental variety when
it can: on a grid whose placements all carry the other variety's identifier
(detrimental and not beneficial for the candidate), if some free block has an
empty perimeter, the block chosen by the scan has no placed neighbour at all;
but once phase 2 packs the grid, the two varieties can end up axis-adjacent. -/
theorem claim_C3 (g : GardenGrid) (A B : Vegetable) (rows cols : Nat)
    (hrows : rows = g.rows) (hcols : cols = g.cols)
    (honly : ∀ row ∈ g.cells, ∀ cell ∈ row,
      (match cell.vegetable with
        | some pv => pv.id == A.id
        | none => true) = true)
    (hgoodB : B.good_companions.any (fun c => c == A.id) = false)
    (hbadB : B.bad_companions.any (fun c => c == A.id) = true)
    (hfree0 : ∃ r0 c0, is_block_free g r0 c0 (cell_span B.spacing_cm) = true ∧
      get_block_neighbors g r0 c0 (cell_span B.spacing_cm) = []) :
    ∀ r c s, find_best_block g B rows cols = some (r, c, s) →
      get_block_neighbors g r c (cell_span B.spacing_cm) = [] := by
  intro r c s hsome
  obtain ⟨hfreeC, hscore⟩ := find_best_block_sound hsome
  obtain ⟨r0, c0, hfree0C, hempty⟩ := hfree0
  have hmax := find_best_block_max hrows hcols hsome hfree0C
  rw [block_score, hempty] at hmax
  simp only [List.map_nil, companion_score, List.foldl_nil] at hmax
  have hallA : ∀ x ∈ (get_block_neighbors g r c (cell_span B.spacing_cm)).map
      (fun v => v.id), companion_delta B x = -3 := by
    intro x hx
    rw [List.mem_map] at hx
    obtain ⟨pv, hpv, hid⟩ := hx
    obtain ⟨r2, c2, hcellv⟩ := get_block_neighbors_mem hpv
    have hidA : pv.id = A.id := by
      rcases getCell_mem_or_default g r2 c2 with hdef | ⟨row, hrow, hcell⟩
      · rw [hdef] at hcellv
        exact Option.noConfusion hcellv
      · have := honly row hrow _ hcell
        rw [hcellv] at this
        simpa using this
    rw [← hid, hidA]
    simp [companion_delta, hgoodB, hbadB, GOOD_COMPANION_SCORE, BAD_COMPANION_SCORE]
  have hsum := sum_map_delta_const B (-3) _ hallA
  rw [block_score, companion_score_eq_sum, hsum] at hscore
  have hlen : ((get_block_neighbors g r c (cell_span B.spacing_cm)).map
      (fun v => v.id)).length = 0 := by omega
  rw [List.length_map] at hlen
  exact List.length_eq_zero.mp hlen

/-- Witness for C3 on `dupGrid` (all placements are tomato) with candidate
`vegAnti` whose detrimental list holds tomato: the chosen block (0, 3) has no
placed neighbour. -/
theorem claim_C3_witness :
    get_block_neighbors dupGrid 0 3 (cell_span vegAnti.spacing_cm) = [] :=
  claim_C3 dupGrid dupVeg vegAnti 2 4 rfl rfl (by decide) (by decide) (by decide)
    ⟨0, 3, by decide, by decide⟩ 0 3 0 (by decide)

/-- Claim C6 — the phase-2 fill loop terminates, and by the full-sweep rule:
a sweep committing at least one placement strictly decreases the bounded
free-cell count and triggers another sweep, and the loop returns exactly when
a complete sweep commits zero placements. -/
theorem claim_C6 (g : GardenGrid) (candidates : List Vegetable) (rows cols : Nat)
    (hwf : WF g) :
    (∃ res, fill_remaining_cells g candidates rows cols = some res) ∧
    (∀ g2, WF g2 → 0 < (sweep g2 candidates rows cols).2.2 →
      freeCount (sweep g2 candidates rows cols).1 < freeCount g2) ∧
    (∀ fuel g2 acc, (sweep g2 candidates rows cols).2.2 = 0 →
      fill_loop candidates rows cols (fuel + 1) g2 acc =
        some ((sweep g2 candidates rows cols).1, acc + (sweep g2 candidates rows cols).2.1)) ∧
    (∀ fuel g2 acc, (sweep g2 candidates rows cols).2.2 ≠ 0 →
      fill_loop candidates rows cols (fuel + 1) g2 acc =
        fill_loop candidates rows cols fuel (sweep g2 candidates rows cols).1
          (acc + (sweep g2 candidates rows cols).2.1)) := by
  refine ⟨?_, ?_, ?_, ?_⟩
  · exact fill_loop_isSome candidates rows cols _ g 0 hwf (by omega)
  · intro g2 hwf2 hpos
    exact sweep_commits_lt hwf2 candidates rows cols hpos
  · intro fuel g2 acc hk
    simp only [fill_loop]
    rw [if_pos hk]
  · intro fuel g2 acc hk
    simp only [fill_loop]
    rw [if_neg hk]

/-- Witness for C6 on a fresh 1×1 grid with the single candidate `vegA`. -/
theorem claim_C6_witness :
    (∃ res, fill_remaining_cells (GardenGrid.new 1 1) [vegA] 1 1 = some res) ∧
    freeCount (sweep (GardenGrid.new 1 1) [vegA] 1 1).1 < freeCount (GardenGrid.new 1 1) :=
  ⟨(claim_C6 (GardenGrid.new 1 1) [vegA] 1 1 (WF_new 1 1)).1,
   (claim_C6 (GardenGrid.new 1 1) [vegA] 1 1 (WF_new 1 1)).2.1 (GardenGrid.new 1 1)
     (WF_new 1 1) (by decide)⟩

/-- Claim C1 — refuted as stated: `get_block_neighbors` de-duplicates by
perimeter *coordinate* (which are already pairwise distinct), not by
placement, so the single 2×2 tomato placement covering two perimeter cells of
the free block at (0, 2) is returned twice. -/
theorem claim_C1 :
    is_block_free dupGrid 0 2 2 = true ∧
    get_block_neighbors dupGrid 0 2 2 = [dupPv, dupPv] ∧
    ¬ (get_block_neighbors dupGrid 0 2 2).Nodup := by
  refine ⟨by decide, by decide, ?_⟩
  intro h
  rw [show get_block_neighbors dupGrid 0 2 2 = [dupPv, dupPv] by decide] at h
  simp [List.nodup_cons] at h

/-- **C8.** Explicit allocation and placement queue: (1) a preference carrying an
explicit quantity whose variety is among the candidates reserves
`min(qty × span², remaining)` cells and deducts that amount from the budget;
(2) a preference without an explicit quantity changes nothing; (3) an identifier
that never appears in the preferences with an explicit quantity receives no
allocation entry at all; (4) a non-zero reservation of `cells` cells yields the
placement count `max(cells / span², 1) ≥ 1`; (5) end to end (with distinct
candidate identifiers): a preferred, allocated variety with a non-zero
reservation appears in the placement-count map with count
`max(cells / span², 1)`, that count is at least one, and the variety contributes
at least one entry to the placement queue. -/
theorem claim_C8 :
    (∀ (candidates : List Vegetable) (m : List (String × Nat)) (rem : Nat)
      (pref : PreferenceEntry) (qty : Nat) (v : Vegetable),
      pref.quantity = some qty →
      candidates.find? (fun w => w.id == pref.id) = some v →
      alloc_step candidates (m, rem) pref =
        (insertAssoc m pref.id (min (qty * (cell_span v.spacing_cm) ^ 2) rem),
         rem - min (qty * (cell_span v.spacing_cm) ^ 2) rem))
    ∧ (∀ (candidates : List Vegetable) (st : List (String × Nat) × Nat)
        (pref : PreferenceEntry), pref.quantity = none →
        alloc_step candidates st pref = st)
    ∧ (∀ (candidates : List Vegetable) (preferences : List PreferenceEntry)
        (available : Nat) (id : String),
        (∀ p ∈ preferences, p.id = id → p.quantity = none) →
        lookupAssoc (compute_explicit_allocation candidates preferences available) id
          = none)
    ∧ (∀ (cells slot : Nat), 0 < cells →
        placements_of_cells cells slot = max (cells / slot) 1 ∧
        1 ≤ placements_of_cells cells slot)
    ∧ (∀ (candidates : List Vegetable) (preferences : List PreferenceEntry)
        (free : Nat) (pref : PreferenceEntry) (v : Vegetable) (cells : Nat),
        (candidates.map (fun w => w.id)).Nodup →
        pref ∈ preferences →
        candidates.find? (fun w => w.id == pref.id) = some v →
        lookupAssoc (compute_explicit_allocation candidates preferences free) v.id
          = some cells →
        0 < cells →
        lookupAssoc (build_placement_queue candidates preferences free).2 v.id
          = some (max (cells / (cell_span v.spacing_cm) ^ 2) 1) ∧
        1 ≤ (lookupAssoc (build_placement_queue candidates preferences free).2
              v.id).getD 0 ∧
        v ∈ (build_placement_queue candidates preferences free).1) := by
  refine ⟨?_, ?_, ?_, ?_, ?_⟩
  · intro candidates m rem pref qty v hq hf
    exact alloc_step_reserve candidates m rem pref qty v hq hf
  · intro candidates st pref h
    exact alloc_step_no_qty candidates st pref h
  · intro candidates preferences available id hall
    unfold compute_explicit_allocation
    exact alloc_foldl_lookup_none candidates id preferences [] available hall rfl
  · intro cells slot hpos
    unfold placements_of_cells
    rw [if_pos hpos]
    exact ⟨rfl, le_max_right _ 1⟩
  · intro candidates preferences free pref v cells hnd hpref hf hlook hpos
    have hvmem : v ∈ candidates := List.mem_of_find?_eq_some hf
    have hfil : v ∈ candidates.filter (fun w =>
        (lookupAssoc (compute_explicit_allocation candidates preferences free)
          w.id).isSome) := by
      rw [List.mem_filter]
      refine ⟨hvmem, ?_⟩
      rw [hlook]
      rfl
    have hnd2 := nodup_ids_filter (fun w =>
      (lookupAssoc (compute_explicit_allocation candidates preferences free)
        w.id).isSome) candidates hnd
    have h1 : lookupAssoc (build_placement_queue candidates preferences free).2 v.id
        = some (placements_of_cells
            ((lookupAssoc (compute_explicit_allocation candidates preferences free)
              v.id).getD 0)
            ((cell_span v.spacing_cm) ^ 2)) :=
      lookup_foldl_insert_mem
        (fun w => placements_of_cells
          ((lookupAssoc (compute_explicit_allocation candidates preferences free)
            w.id).getD 0)
          ((cell_span w.spacing_cm) ^ 2))
        (candidates.filter (fun w =>
          (lookupAssoc (compute_explicit_allocation candidates preferences free)
            w.id).isSome)) [] v hfil hnd2
    rw [hlook] at h1
    simp only [Option.getD_some, placements_of_cells] at h1
    rw [if_pos hpos] at h1
    refine ⟨h1, ?_, ?_⟩
    · rw [h1]
      simp only [Option.getD_some]
      exact le_max_right _ 1
    · rw [build_placement_queue_fst]
      refine List.mem_flatMap.mpr ⟨v, List.mem_filterMap.mpr ⟨pref, hpref, hf⟩, ?_⟩
      rw [h1]
      simp only [Option.getD_some]
      refine List.mem_replicate.mpr ⟨?_, rfl⟩
      have hn : 1 ≤ max (cells / (cell_span v.spacing_cm) ^ 2) 1 := le_max_right _ 1
      omega

/-- Witness for C8: one candidate (`vegA`, span 1) and the single preference
`("a", quantity 2)` over a budget of five free cells reserve two cells, map to
two placements, and put `vegA` in the queue. -/
theorem claim_C8_witness :
    lookupAssoc (compute_explicit_allocation [vegA]
      [({ id := "a", quantity := some 2 } : PreferenceEntry)] 5) vegA.id = some 2 ∧
    lookupAssoc (build_placement_queue [vegA]
      [({ id := "a", quantity := some 2 } : PreferenceEntry)] 5).2 vegA.id = some 2 ∧
    vegA ∈ (build_placement_queue [vegA]
      [({ id := "a", quantity := some 2 } : PreferenceEntry)] 5).1 := by
  have h := claim_C8.2.2.2.2 [vegA]
    [({ id := "a", quantity := some 2 } : PreferenceEntry)] 5
    ({ id := "a", quantity := some 2 } : PreferenceEntry) vegA 2
    (by decide) (List.mem_cons_self _ _) (by decide) (by decide) (by decide)
  refine ⟨by decide, ?_, h.2.2⟩
  rw [h.1]
  decide

end Garden
